import Mathlib

/-!
Verification of the safe-decoder repository's multiSend decoder and Safe
hash calculator against its natural-language specification.

JavaScript strings are modelled as `List Char`; JavaScript numbers that can
be `NaN` are modelled as `Option Int` (with `none` for `NaN`); code that can
throw is modelled with `Except`; the unbounded `while` loop of the bundle
decoder is modelled with explicit fuel, `none` meaning the loop did not
finish within the given fuel (so `∀ fuel, ... = none` expresses divergence).
Cryptographic hashes and ABI encodings are modelled as opaque inductive
terms: the claims under study are about which data is hashed/encoded, never
about concrete digest bytes.
-/

namespace SafeDecoder

/-- A JavaScript string, as a list of its characters. -/
abbrev JStr := List Char

/-- Value of a hexadecimal digit, `none` if the character is not one.
Covers `0-9`, `a-f`, `A-F` as JavaScript's `parseInt(_, 16)` does. -/
def hexVal? (c : Char) : Option Nat :=
  if '0' ≤ c ∧ c ≤ '9' then some (c.toNat - '0'.toNat)
  else if 'a' ≤ c ∧ c ≤ 'f' then some (c.toNat - 'a'.toNat + 10)
  else if 'A' ≤ c ∧ c ≤ 'F' then some (c.toNat - 'A'.toNat + 10)
  else none

/-- Whether a character is a hexadecimal digit. -/
def isHexDigit (c : Char) : Bool := (hexVal? c).isSome

/-- Whether a character is a decimal digit. -/
def isDecDigit (c : Char) : Bool := decide ('0' ≤ c ∧ c ≤ '9')

/-- JavaScript whitespace characters relevant to `parseInt`/`Number`/`trim`. -/
def jsIsSpace (c : Char) : Bool :=
  decide (c = ' ' ∨ c = '\t' ∨ c = '\n' ∨ c = '\r' ∨ c = '\x0b' ∨ c = '\x0c')

/-- Accumulate the value of a run of hexadecimal digits (most significant first). -/
def hexRunVal (digits : JStr) : Nat :=
  digits.foldl (fun acc c => 16 * acc + ((hexVal? c).getD 0)) 0

/-- JavaScript `parseInt(s, 16)`: skip leading whitespace, optional sign,
optional `0x`/`0X` prefix, then the longest run of hex digits; `none`
models the `NaN` result when no digit is found. -/
def parseIntHex (s : JStr) : Option Int :=
  let s1 := s.dropWhile jsIsSpace
  let neg : Bool := s1.head? = some '-'
  let s2 := if s1.head? = some '-' ∨ s1.head? = some '+' then s1.tail else s1
  let s3 := if s2.take 2 = ['0', 'x'] ∨ s2.take 2 = ['0', 'X'] then s2.drop 2 else s2
  let digits := s3.takeWhile isHexDigit
  if digits = [] then none
  else some ((if neg then -1 else 1) * Int.ofNat (hexRunVal digits))

/-- Clamp a JavaScript `slice` index to `[0, len]`, resolving negative
indices relative to the end of the string. -/
def clampIdx (len : Nat) (i : Int) : Nat :=
  if i < 0 then (Int.ofNat len + i).toNat else min i.toNat len

/-- JavaScript `String.prototype.slice(start, stop)`; a `none` index models
`NaN`, which `ToIntegerOrInfinity` converts to `0`. -/
def jsSlice (s : JStr) (start stop : Option Int) : JStr :=
  let len := s.length
  let a := clampIdx len (start.getD 0)
  let b := clampIdx len (stop.getD 0)
  if a < b then (s.drop a).take (b - a) else []

/-- Whether a JavaScript string starts with the two characters `0x`
(the case-sensitive `startsWith('0x')` test used throughout the source). -/
def startsWith0x (s : JStr) : Bool := s.take 2 = ['0', 'x']

/-- `normalizeHexString` from `utils/decoder.ts` (lines 851-866): empty input
returns `0x`; an optional lowercase `0x` prefix is removed; a leading `0` is
added when the remaining length is odd; the `0x` prefix is put back. -/
def normalizeHexString (hexString : JStr) : JStr :=
  if hexString = [] then ['0', 'x']
  else
    let stripped := if startsWith0x hexString then hexString.drop 2 else hexString
    if stripped = [] then ['0', 'x']
    else
      let normalized := if stripped.length % 2 ≠ 0 then '0' :: stripped else stripped
      '0' :: 'x' :: normalized

/-- `normalizeHexString` from `utils/checksums/safeHashesCalculator.ts`
(lines 33-44): same as the decoder variant except that a falsy (empty) input
is returned unchanged and there is no separate empty-after-strip check. -/
def normalizeHexStringCk (hexString : JStr) : JStr :=
  if hexString = [] then hexString
  else
    let stripped := if startsWith0x hexString then hexString.drop 2 else hexString
    let normalized := if stripped.length % 2 ≠ 0 then '0' :: stripped else stripped
    '0' :: 'x' :: normalized

/-- Modelled from the spec sentence of claim C7, as amended by the observed
behaviour: only a lowercase `0x` prefix is stripped (an `0X` prefix is kept
as payload), the remainder is left-padded with one `0` when of odd length,
and the result is `0x`-prefixed; empty input yields `0x`. -/
def normalizeHexAmended (s : JStr) : JStr :=
  if s = [] then ['0', 'x']
  else
    let body := if startsWith0x s then s.drop 2 else s
    if body = [] then ['0', 'x']
    else if body.length % 2 = 1 then '0' :: 'x' :: ('0' :: body)
    else '0' :: 'x' :: body

/-! ## Version comparison (`safeHashesCalculator.ts`, `compareVersions`) -/

/-- JavaScript `String.prototype.trim()`. -/
def jsTrim (s : JStr) : JStr :=
  ((s.dropWhile jsIsSpace).reverse.dropWhile jsIsSpace).reverse

/-- JavaScript `s.split('.')`: always returns at least one (possibly empty)
component; the empty string splits to one empty component. -/
def splitOnDot : JStr → List JStr
  | [] => [[]]
  | c :: rest =>
    if c = '.' then [] :: splitOnDot rest
    else
      match splitOnDot rest with
      | [] => [[c]]
      | p :: ps => (c :: p) :: ps

/-- Value of a run of decimal digits (most significant first). -/
def decRunVal (digits : JStr) : Nat :=
  digits.foldl (fun acc c => 10 * acc + (c.toNat - '0'.toNat)) 0

/-- JavaScript `Number(s)` on the fragment exercised by version components:
whitespace is trimmed, the empty string converts to `0`, an optional sign
followed by decimal digits converts to the signed value, anything else is
`NaN` (`none`). JavaScript also accepts hex/exponent/fractional literals
and computes in doubles; version components in this development are either
plain decimal digit runs (where doubles are exact up to 2^53, and where
rounding cannot change a comparison against the small constants `1.2.0` and
`1.0.0`) or strings that are `NaN` in both semantics. -/
def jsNumber (s : JStr) : Option Int :=
  let t := jsTrim s
  if t = [] then some 0
  else
    let neg : Bool := t.head? = some '-'
    let mag := if t.head? = some '-' ∨ t.head? = some '+' then t.tail else t
    if mag ≠ [] ∧ mag.all isDecDigit then
      some ((if neg then -1 else 1) * Int.ofNat (decRunVal mag))
    else none

/-- Tail of the comparison loop once the first component list is exhausted:
its entries read as `0` against the remaining entries of the second list. -/
def cmpTail : List Int → Int
  | [] => 0
  | b :: bs => if 0 ≠ b then 0 - b else cmpTail bs

/-- The indexed comparison loop of `compareVersions`, fused over the two
component lists; a missing component reads as `0` (as `aParts[i] || 0`
does). The first pair of distinct values decides the result. -/
def cmpLoop : List Int → List Int → Int
  | [], bs => cmpTail bs
  | a :: as, [] => if a ≠ 0 then a - 0 else cmpLoop as []
  | a :: as, b :: bs => if a ≠ b then a - b else cmpLoop as bs

/-- `compareVersions` from `safeHashesCalculator.ts` (lines 8-21): split both
strings on `.`, convert components with `Number`, then compare index-wise;
`aParts[i] || 0` coerces a `NaN` component (and a missing one, and `0`
itself) to `0`, which `Option.getD 0` reproduces value-for-value. -/
def compareVersions (a b : JStr) : Int :=
  cmpLoop ((splitOnDot a).map (fun c => (jsNumber c).getD 0))
          ((splitOnDot b).map (fun c => (jsNumber c).getD 0))

/-! ## Opaque model of keccak256 and the ethers ABI coder

`JsVal` is the value space flowing through the hash calculator: JavaScript
strings, ABI encodings (kept symbolic as the typed tuple that was encoded),
keccak digests (kept symbolic as the hashed value), and the
`0x19 0x01 ‖ domainHash ‖ messageHash` concatenation. The claims verified
here are about which tuple is encoded and hashed, never about digest bytes,
so constructors stand in for the hash function. -/

inductive JsVal where
  | str : JStr → JsVal
  | abiEnc : List JStr → List JsVal → JsVal
  | keccak : JsVal → JsVal
  | cat1901 : JsVal → JsVal → JsVal

/-- Failure conditions thrown by ethers primitives used by the calculator. -/
inductive JsErr where
  | invalidBigNumber
  | invalidAddress (s : JStr)
  | invalidBytes32
  | numberOutOfRange (s : JStr)
  | invalidHexData (s : JStr)
  deriving DecidableEq

/-- `ethers.BigNumber.from` on a string: accepts `-?0x[0-9a-f]+` (any case)
or `-?[0-9]+`, anything else throws (`none`). -/
def bigNumMag (s : JStr) : Option Nat :=
  if s.take 2 = ['0', 'x'] ∨ s.take 2 = ['0', 'X'] then
    let d := s.drop 2
    if d ≠ [] ∧ d.all isHexDigit then some (hexRunVal d) else none
  else if s ≠ [] ∧ s.all isDecDigit then some (decRunVal s) else none

/-- `ethers.BigNumber.from` on a string, with sign. -/
def bigNumberFromStr (s : JStr) : Option Int :=
  match s with
  | '-' :: rest => (bigNumMag rest).map (fun n => -(Int.ofNat n))
  | _ => (bigNumMag s).map Int.ofNat

/-- `ethers.BigNumber.from('0x' + s)` as used by the bundle decoder: valid
exactly when `s` is a nonempty run of hex digits. -/
def bigNumberFromHex (s : JStr) : Option Nat :=
  if s ≠ [] ∧ s.all isHexDigit then some (hexRunVal s) else none

/-- Address validation performed by the ABI coder (`getAddress`): `0x` plus
40 hex digits. EIP-55 checksum verification of mixed-case addresses needs a
real keccak and is modelled as rejection; every address appearing in the
theorems below is lowercase, where ethers and this model agree. -/
def validAddress (s : JStr) : Bool :=
  startsWith0x s && ((s.drop 2).length == 40)
    && (s.drop 2).all (fun c => isHexDigit c && !c.isUpper)

/-- Bytes32 validation performed by the ABI coder on a string value: `0x`
plus 64 hex digits. -/
def validBytes32 (s : JStr) : Bool :=
  startsWith0x s && ((s.drop 2).length == 64) && (s.drop 2).all isHexDigit

/-- Validation of a single (solidity type, value) pair by
`ethers.utils.AbiCoder.encode`; `none` means the pair encodes without
throwing. Symbolic hash values occupy `bytes32` slots and are abstractly
valid 32-byte words. -/
def encodeAbiCheck (ty : JStr) (v : JsVal) : Option JsErr :=
  if ty = "address".toList then
    match v with
    | .str s => if validAddress s then none else some (.invalidAddress s)
    | _ => some (.invalidAddress [])
  else if ty = "bytes32".toList then
    match v with
    | .str s => if validBytes32 s then none else some .invalidBytes32
    | _ => none
  else if ty = "uint256".toList then
    match v with
    | .str s =>
      match bigNumberFromStr s with
      | some n => if 0 ≤ n ∧ n < Int.ofNat (2 ^ 256) then none else some (.numberOutOfRange s)
      | none => some .invalidBigNumber
    | _ => some .invalidBigNumber
  else if ty = "uint8".toList then
    match v with
    | .str s =>
      match bigNumberFromStr s with
      | some n => if 0 ≤ n ∧ n < Int.ofNat (2 ^ 8) then none else some (.numberOutOfRange s)
      | none => some .invalidBigNumber
    | _ => some .invalidBigNumber
  else none

/-- First validation error among a list of (type, value) pairs. -/
def firstEncodeErr : List (JStr × JsVal) → Option JsErr
  | [] => none
  | (t, v) :: rest =>
    match encodeAbiCheck t v with
    | some e => some e
    | none => firstEncodeErr rest

/-- `encodeAbi` from `safeHashesCalculator.ts` (lines 46-49): validate every
pair, then produce the (symbolic) encoding of the typed tuple. -/
def encodeAbi (types : List JStr) (values : List JsVal) : Except JsErr JsVal :=
  if types.length ≠ values.length then .error .invalidBigNumber
  else
    match firstEncodeErr (types.zip values) with
    | some e => .error e
    | none => .ok (.abiEnc types values)

/-- `keccak256Int` from `safeHashesCalculator.ts` (lines 23-26): prefix `0x`
when missing, then `ethers.utils.keccak256`, which throws unless its
argument is a valid even-length hex string; symbolic encodings and digests
are abstractly valid byte strings. -/
def keccak256Int (hexData : JsVal) : Except JsErr JsVal :=
  match hexData with
  | .str s =>
    let formatted := if startsWith0x s then s else '0' :: 'x' :: s
    if (formatted.drop 2).all isHexDigit ∧ (formatted.drop 2).length % 2 = 0 then
      .ok (.keccak (.str formatted))
    else .error (.invalidHexData s)
  | v => .ok (.keccak v)

def DOMAIN_SEPARATOR_TYPEHASH : JStr :=
  "0x47e79534a245952e8b16893a336b85a3d9ea9fa8c573f3d803afb92a79469218".toList

def SAFE_TX_TYPEHASH : JStr :=
  "0xbb8310d486368db6bd6f849402fdd73ad53d316b5a4b2644ad6efe0f941286d8".toList

def SAFE_TX_TYPEHASH_OLD : JStr :=
  "0x14d461bc7412367e924637b363c7bf29b8f47e2f84869f4426e5633d8af47b20".toList

/-- `calculateDomainHash` (lines 51-69): versions `<= 1.2.0` (per
`compareVersions`) encode `(domainTypeHash, safeAddress)`, later versions
encode `(domainTypeHash, chainId, safeAddress)`; the encoding is hashed. -/
def calculateDomainHash (version safeAddress chainId : JStr) : Except JsErr JsVal :=
  let cleanVersion := jsTrim version
  if compareVersions cleanVersion ("1.2.0".toList) ≤ 0 then
    match encodeAbi ["bytes32".toList, "address".toList]
        [.str DOMAIN_SEPARATOR_TYPEHASH, .str safeAddress] with
    | .error e => .error e
    | .ok encodedData => keccak256Int encodedData
  else
    match encodeAbi ["bytes32".toList, "uint256".toList, "address".toList]
        [.str DOMAIN_SEPARATOR_TYPEHASH, .str chainId, .str safeAddress] with
    | .error e => .error e
    | .ok encodedData => keccak256Int encodedData

/-- `calculateSafeTxHash` (lines 71-82): hash of
`0x19 ‖ 0x01 ‖ domainHash ‖ messageHash`. -/
def calculateSafeTxHash (domainHash messageHash : JsVal) : Except JsErr JsVal :=
  keccak256Int (.cat1901 domainHash messageHash)

structure HashResult where
  domainHash : JsVal
  messageHash : JsVal
  safeTxHash : JsVal
  encodedMessage : JsVal

/-- `calculateHashes` (lines 84-138): normalize hex parameters, compute the
domain hash, hash the call data, select the transaction type-hash constant
(legacy for versions `< 1.0.0` per `compareVersions`), ABI-encode the
11-field message tuple, hash it, and combine per EIP-191/712. -/
def calculateHashes (chainId address toAddr value data operation safeTxGas baseGas
    gasPrice gasToken refundReceiver nonce version : JStr) :
    Except JsErr HashResult :=
  let normalizedData := normalizeHexStringCk data
  let normalizedTo := normalizeHexStringCk toAddr
  let normalizedAddress := normalizeHexStringCk address
  let normalizedGasToken := normalizeHexStringCk gasToken
  let normalizedRefundReceiver := normalizeHexStringCk refundReceiver
  let cleanVersion := jsTrim version
  match calculateDomainHash version normalizedAddress chainId with
  | .error e => .error e
  | .ok domainHash =>
    match keccak256Int (.str normalizedData) with
    | .error e => .error e
    | .ok dataHashed =>
      let safeTxTypehash :=
        if compareVersions cleanVersion ("1.0.0".toList) < 0 then SAFE_TX_TYPEHASH_OLD
        else SAFE_TX_TYPEHASH
      match encodeAbi
          (["bytes32", "address", "uint256", "bytes32", "uint8", "uint256", "uint256",
            "uint256", "address", "address", "uint256"].map String.toList)
          [.str safeTxTypehash, .str normalizedTo, .str value, dataHashed, .str operation,
            .str safeTxGas, .str baseGas, .str gasPrice, .str normalizedGasToken,
            .str normalizedRefundReceiver, .str nonce] with
      | .error e => .error e
      | .ok message =>
        match keccak256Int message with
        | .error e => .error e
        | .ok messageHash =>
          match calculateSafeTxHash domainHash messageHash with
          | .error e => .error e
          | .ok safeTxHash => .ok ⟨domainHash, messageHash, safeTxHash, message⟩

/-! ## Spec-side numeric version comparison -/

/-- Spec-side comparison tail for an exhausted left-hand version: missing
components count as `0`. -/
def numCompareTail : List Int → Ordering
  | [] => .eq
  | b :: bs => if 0 < b then .lt else if b < 0 then .gt else numCompareTail bs

/-- Modelled from the spec: numeric comparison, per dot-separated component,
left to right; a missing component on either side counts as `0`. -/
def numCompare : List Int → List Int → Ordering
  | [], bs => numCompareTail bs
  | a :: as, [] => if a < 0 then .lt else if 0 < a then .gt else numCompare as []
  | a :: as, b :: bs => if a < b then .lt else if b < a then .gt else numCompare as bs

/-- Spec-side numeric component values of a version string: the decimal
value of each dot-separated component of the trimmed string. -/
def versionComponents (v : JStr) : List Int :=
  (splitOnDot (jsTrim v)).map (fun c => (decRunVal c : Int))

/-- A version string whose trimmed form consists of nonempty decimal-digit
components. -/
def digitVersion (v : JStr) : Bool :=
  (splitOnDot (jsTrim v)).all (fun c => !c.isEmpty && c.all isDecDigit)

/-- Modelled from the spec (§4.6 step 4): versions numerically `≤ 1.2.0`
encode the two-field domain tuple, later versions the three-field tuple. -/
def calculateDomainHashSpec (version safeAddress chainId : JStr) :
    Except JsErr JsVal :=
  if numCompare (versionComponents version) [1, 2, 0] ≠ .gt then
    match encodeAbi ["bytes32".toList, "address".toList]
        [.str DOMAIN_SEPARATOR_TYPEHASH, .str safeAddress] with
    | .error e => .error e
    | .ok encodedData => keccak256Int encodedData
  else
    match encodeAbi ["bytes32".toList, "uint256".toList, "address".toList]
        [.str DOMAIN_SEPARATOR_TYPEHASH, .str chainId, .str safeAddress] with
    | .error e => .error e
    | .ok encodedData => keccak256Int encodedData

/-- Modelled from the spec (§4.6 steps 3-6): like `calculateHashes` but with
the hashing variants selected by genuinely numeric per-component version
comparison — legacy type-hash for versions numerically `< 1.0.0`, two-field
domain tuple for versions numerically `≤ 1.2.0`. -/
def calculateHashesSpec (chainId address toAddr value data operation safeTxGas
    baseGas gasPrice gasToken refundReceiver nonce version : JStr) :
    Except JsErr HashResult :=
  let normalizedData := normalizeHexStringCk data
  let normalizedTo := normalizeHexStringCk toAddr
  let normalizedAddress := normalizeHexStringCk address
  let normalizedGasToken := normalizeHexStringCk gasToken
  let normalizedRefundReceiver := normalizeHexStringCk refundReceiver
  match calculateDomainHashSpec version normalizedAddress chainId with
  | .error e => .error e
  | .ok domainHash =>
    match keccak256Int (.str normalizedData) with
    | .error e => .error e
    | .ok dataHashed =>
      let safeTxTypehash :=
        if numCompare (versionComponents version) [1, 0, 0] = .lt then SAFE_TX_TYPEHASH_OLD
        else SAFE_TX_TYPEHASH
      match encodeAbi
          (["bytes32", "address", "uint256", "bytes32", "uint8", "uint256", "uint256",
            "uint256", "address", "address", "uint256"].map String.toList)
          [.str safeTxTypehash, .str normalizedTo, .str value, dataHashed, .str operation,
            .str safeTxGas, .str baseGas, .str gasPrice, .str normalizedGasToken,
            .str normalizedRefundReceiver, .str nonce] with
      | .error e => .error e
      | .ok message =>
        match keccak256Int message with
        | .error e => .error e
        | .ok messageHash =>
          match calculateSafeTxHash domainHash messageHash with
          | .error e => .error e
          | .ok safeTxHash => .ok ⟨domainHash, messageHash, safeTxHash, message⟩

/-! ## The multiSend bundle decoder (`utils/decoder.ts`) -/

/-- One decoded bundle entry. `operation` is `parseInt` output (`none` is
`NaN`); `value` is the `BigNumber` value (the TS field holds its decimal
string); `dataLength` is the recorded byte count `parseInt(lenHex,16)*2/2`,
which equals `parseInt(lenHex,16)` exactly (`none` is `NaN`); `data` keeps
its `0x` prefix. The `to` field is spelled `toAddr` (`to` is reserved). -/
structure DecodedTransaction where
  operation : Option Int
  toAddr : JStr
  value : Nat
  dataLength : Option Int
  data : JStr
  deriving DecidableEq

/-- The `while` loop of `decodeMultiSendTransactions`, with explicit fuel.
`none` means the loop did not finish within the fuel (so
`∀ fuel, … = none` expresses divergence); `some (.error _)` models a thrown
exception (`BigNumber.from` on an empty or non-hex value slice);
`some (.ok _)` is normal return. A `none` cursor models a `NaN`
`currentIndex`, on which `currentIndex < hexData.length` is false and the
loop exits. -/
def decodeMultiSendGo (hex : JStr) : Nat → Option Int → List DecodedTransaction →
    Option (Except JsErr (List DecodedTransaction))
  | 0, _, _ => none
  | _ + 1, none, acc => some (.ok acc.reverse)
  | fuel + 1, some c, acc =>
    if c < (hex.length : Int) then
      let operation := parseIntHex (jsSlice hex (some c) (some (c + 2)))
      let toA := '0' :: 'x' :: jsSlice hex (some (c + 2)) (some (c + 42))
      let valueHex := jsSlice hex (some (c + 42)) (some (c + 106))
      match bigNumberFromHex valueHex with
      | none => some (.error .invalidBigNumber)
      | some v =>
        let dataLenBytes := parseIntHex (jsSlice hex (some (c + 106)) (some (c + 170)))
        let dataLength := dataLenBytes.map (· * 2)
        let txData := '0' :: 'x' ::
          jsSlice hex (some (c + 170)) (dataLength.map (fun d => c + 170 + d))
        let newCur := dataLength.map (fun d => c + 170 + d)
        decodeMultiSendGo hex fuel newCur
          ({ operation := operation, toAddr := toA, value := v,
             dataLength := dataLenBytes, data := txData } :: acc)
    else some (.ok acc.reverse)

/-- `decodeMultiSendTransactions` from `utils/decoder.ts` (lines 175-215):
normalize, strip the `0x` prefix, return `[]` on an empty payload, else run
the parsing loop from offset 0. -/
def decodeMultiSendTransactions (fuel : Nat) (data : JStr) :
    Option (Except JsErr (List DecodedTransaction)) :=
  let normalizedData := normalizeHexString data
  let hexData := if startsWith0x normalizedData then normalizedData.drop 2
    else normalizedData
  if hexData = [] then some (.ok [])
  else decodeMultiSendGo hexData fuel (some 0) []

/-- The second `decodeMultiSendTransactions` variant (lines 892-928): no
normalization, just the `0x` strip, then the identical loop. -/
def decodeMultiSendTransactionsV2 (fuel : Nat) (data : JStr) :
    Option (Except JsErr (List DecodedTransaction)) :=
  let hexData := if startsWith0x data then data.drop 2 else data
  decodeMultiSendGo hexData fuel (some 0) []

def c2input : JStr :=
  ("00" ++ "ef4461891dfb3ac8572ccf7c794664a8dd927945"
    ++ "0000000000000000000000000000000000000000000000000000000000000000"
    ++ "0000000000000000000000000000000000000000000000000000000000000004"
    ++ "ab").toList

def decodeMultiSendDiverges (data : JStr) : Prop :=
  ∀ fuel, decodeMultiSendTransactions fuel data = none

def c10input : JStr :=
  ("00" ++ "ef4461891dfb3ac8572ccf7c794664a8dd927945"
    ++ "0000000000000000000000000000000000000000000000000000000000000000"
    ++ "-55" ++ "zzzzzzzzzzzzzzzzzzzzzzzzzzzzzzzzzzzzzzzzzzzzzzzzzzzzzzzzzzzzz").toList

def c10tx : DecodedTransaction :=
  ⟨some 0, ("0xef4461891dfb3ac8572ccf7c794664a8dd927945").toList, 0,
    some (-85), ("0x").toList⟩

/-- Whether an `Except` result is a normal (non-thrown) return. -/
def isOkE {ε α : Type} : Except ε α → Bool
  | .ok _ => true
  | .error _ => false

def c3addr : JStr := ("0xc71605ab3ea0e614a1e2e11b77e353ee964a44ef").toList

def zeroAddr : JStr := ("0x0000000000000000000000000000000000000000").toList

/-! ## The function selector registry (`utils/decoder.ts`) -/

/-- One entry of the OpenChain JSON response list under
`result.function[selector]`; each exposes at most one of `name`,
`signature`, `text_signature`. -/
structure SigEntry where
  name : Option JStr := none
  signature : Option JStr := none
  text_signature : Option JStr := none

/-- A field value that is a string with nonempty trim, else `none`
(the `typeof entry?.name === 'string' && entry.name.trim().length > 0`
test). -/
def nonBlank (o : Option JStr) : Option JStr :=
  match o with
  | some s => if 0 < (jsTrim s).length then some s else none
  | none => none

/-- The signature string extracted from an entry: first of
`name` / `signature` / `text_signature` that is a nonblank string. -/
def entrySignature (e : SigEntry) : Option JStr :=
  match nonBlank e.name with
  | some s => some s
  | none =>
    match nonBlank e.signature with
    | some s => some s
    | none => nonBlank e.text_signature

/-- `Array.from(new Set(xs))`: deduplication keeping first occurrences. -/
def dedupeAux : List JStr → List JStr → List JStr
  | _, [] => []
  | seen, x :: xs =>
    if x ∈ seen then dedupeAux seen xs else x :: dedupeAux (x :: seen) xs

def dedupe (l : List JStr) : List JStr := dedupeAux [] l

/-- Outcome of the HTTP GET of the remote lookup as observed by the code: a
parsed `result.function` map (keys are selector strings, values candidate
entry lists), a non-2xx status, or a network/JSON failure. -/
inductive NetResponse where
  | ok (functionMap : List (JStr × List SigEntry))
  | httpError (status : Nat)
  | netFailure

/-- The network, as a function from the queried (lowercased) selector to
the response. -/
abbrev Net := JStr → NetResponse

/-- The module-level `openChainResolvedCache`, an association list from
lowercase selector to resolved signature list. The in-flight promise map
(`openChainSignatureCache`) only deduplicates concurrent lookups and is
deleted in the `finally` block; under the sequential execution modelled
here every lookup runs to completion before the next begins, so the
resolved cache is the only observable state. -/
abbrev OpenChainState := List (JStr × List JStr)

def cacheLookup (st : OpenChainState) (k : JStr) : Option (List JStr) :=
  match st with
  | [] => none
  | (k2, v) :: rest => if k2 = k then some v else cacheLookup rest k

/-- `Object.keys(functionResults).find(key => key.toLowerCase() === normalized)`,
returning that key's entry list. -/
def findMatchedKey (m : List (JStr × List SigEntry)) (normalized : JStr) :
    Option (List SigEntry) :=
  match m with
  | [] => none
  | (k, v) :: rest =>
    if k.map Char.toLower = normalized then some v else findMatchedKey rest normalized

/-- `fetchOpenChainFunctionSignatures` (decoder.ts lines 35-98) under
sequential execution: returns the signature list, the updated resolved
cache, and the number of network requests issued. The `try/catch` inside
the lookup converts every fetch rejection, non-2xx status or malformed
body into a cached empty list; the promise always resolves, so no
exception ever crosses this boundary. -/
def fetchOpenChainFunctionSignatures (net : Net) (st : OpenChainState)
    (selector : JStr) : List JStr × OpenChainState × Nat :=
  let normalized := selector.map Char.toLower
  match cacheLookup st normalized with
  | some sigs => (sigs, st, 0)
  | none =>
    match net normalized with
    | .ok functionMap =>
      let entries := (findMatchedKey functionMap normalized).getD []
      let uniqueSignatures := dedupe (entries.filterMap entrySignature)
      (uniqueSignatures, (normalized, uniqueSignatures) :: st, 1)
    | .httpError _ => ([], (normalized, []) :: st, 1)
    | .netFailure => ([], (normalized, []) :: st, 1)

inductive SourceTag where
  | manual
  | openchain
  deriving DecidableEq

/-- `DecodedFunctionData` from decoder.ts; `params` is the insertion-ordered
`Record<string, string>`. -/
structure DecodedFunctionData where
  name : JStr
  params : List (JStr × JStr)
  error : Option JStr := none
  source : Option SourceTag := none
  candidates : Option (List JStr) := none
  deriving DecidableEq

/-- `manualResult` (lines 123-128): tag a result as manually decoded. -/
def manualResult (r : DecodedFunctionData) : DecodedFunctionData :=
  { r with source := some .manual }

/-- `openChainResult` (lines 130-136): tag a result as resolved remotely,
with the full candidate list. -/
def openChainResult (r : DecodedFunctionData) (cands : List JStr) :
    DecodedFunctionData :=
  { r with source := some .openchain, candidates := some cands }

/-- The ethers machinery used by branches not under verification, left
abstract so the theorems below hold for every behaviour of it:
`tryDecodeUsingSignature` models lines 138-157 (`none` = the structural
decode threw and was caught); `decodeApprove` / `decodeSetAllowedFrom` /
`decodeClaim` model the `Interface.decodeFunctionData` calls of those
branches (`Except.error` carries the thrown message); `toExp` models
`parseFloat(x).toExponential(2)` of `formatLargeNumber`. -/
structure EthersOracle where
  tryDecodeUsingSignature : JStr → JStr → Option DecodedFunctionData
  decodeApprove : JStr → Except JStr (JStr × Nat)
  decodeSetAllowedFrom : JStr → Except JStr (JStr × Bool)
  decodeClaim : JStr → Except JStr JStr
  toExp : JStr → JStr

/-- `formatLargeNumber` (lines 356-370) applied to the decimal string of a
`BigNumber` value: 10 or fewer digits unadorned, else a bracketed
scientific-notation hint is appended. -/
def formatLargeNumberN (O : EthersOracle) (n : Nat) : JStr :=
  let numStr := (Nat.repr n).toList
  if numStr.length ≤ 10 then numStr
  else numStr ++ (" [").toList ++ O.toExp numStr ++ ("]").toList

/-- `number < number` in JavaScript: false when either side is `NaN`. -/
def jsLt (a b : Option Int) : Bool :=
  match a, b with
  | some x, some y => x < y
  | _, _ => false

/-- Addition with `NaN` propagation. -/
def optAdd (a b : Option Int) : Option Int :=
  match a, b with
  | some x, some y => some (x + y)
  | _, _ => none

/-- Decimal rendering of a JavaScript number that may be `NaN`, as used in
template literals. -/
def jsNumToStr (o : Option Int) : JStr :=
  match o with
  | some n => (Int.repr n).toList
  | none => ("NaN").toList

/-- The multiSend branch of `tryDecodeFunctionData` (lines 384-447): read
the dynamic-bytes offset and length, slice the inner bundle out, decode it
for a display count (a failed inner decode is caught and reported as count
0), and return the raw inner hex as `params.transactions`. The two
`throw`s are caught by the surrounding `catch`, which produces the error
result; `none` means the inner bundle decode diverged. -/
def multiSendBranch (fuel : Nat) (data : JStr) : Option DecodedFunctionData :=
  let errResult : JStr → DecodedFunctionData := fun msg =>
    manualResult ⟨("multiSend(bytes)").toList, [],
      some (("Failed to decode multiSend function parameters: ").toList ++ msg),
      none, none⟩
  let abiEncodedParams := jsSlice data (some 10) (some (data.length : Int))
  if abiEncodedParams.length < 64 then
    some (errResult (("Data too short to read offset").toList))
  else
    let offsetHex := jsSlice abiEncodedParams (some 0) (some 64)
    let offsetBytes := parseIntHex offsetHex
    let offsetHexChars := offsetBytes.map (· * 2)
    if jsLt (some (abiEncodedParams.length : Int)) (offsetHexChars.map (· + 64)) then
      some (errResult ((("Data too short to read length at offset ").toList
        ++ jsNumToStr offsetBytes)))
    else
      let lengthHex := jsSlice abiEncodedParams offsetHexChars (offsetHexChars.map (· + 64))
      let lengthBytes := parseIntHex lengthHex
      let lengthHexChars := lengthBytes.map (· * 2)
      if jsLt (some (abiEncodedParams.length : Int))
          (optAdd (offsetHexChars.map (· + 64)) lengthHexChars) then
        some (errResult ((("Data too short to read ").toList ++ jsNumToStr lengthBytes
          ++ (" bytes of data starting after length field").toList)))
      else
        let transactionsData := jsSlice abiEncodedParams (offsetHexChars.map (· + 64))
          (optAdd (offsetHexChars.map (· + 64)) lengthHexChars)
        (decodeMultiSendTransactions fuel ('0' :: 'x' :: transactionsData)).map
          (fun r =>
            let decodedTransactions := match r with
              | .ok txs => txs
              | .error _ => []
            manualResult ⟨("multiSend(bytes)").toList,
              [(("transactions").toList, transactionsData),
               (("decodedTransactionsCount").toList,
                 (Nat.repr decodedTransactions.length).toList)], none, none, none⟩)

/-- The approve branch (lines 450-473). -/
def approveBranch (O : EthersOracle) (data : JStr) : DecodedFunctionData :=
  match O.decodeApprove data with
  | .ok (spender, amount) =>
    manualResult ⟨("approve(address,uint256)").toList,
      [(("spender").toList,
        if spender = [] then ("0x0000000000000000000000000000000000000000").toList
        else spender.map Char.toLower),
       (("amount").toList, (Nat.repr amount).toList)], none, none, none⟩
  | .error msg =>
    manualResult ⟨("approve(address,uint256)").toList, [],
      some (("Failed to decode approve function parameters: ").toList ++ msg),
      none, none⟩

/-- The setAllowedFrom branch (lines 476-496). -/
def setAllowedFromBranch (O : EthersOracle) (data : JStr) : DecodedFunctionData :=
  match O.decodeSetAllowedFrom data with
  | .ok (fromAddr, allowed) =>
    manualResult ⟨("setAllowedFrom(address,bool)").toList,
      [(("from").toList, fromAddr.map Char.toLower),
       (("allowed").toList, (if allowed then "true" else "false").toList)],
      none, none, none⟩
  | .error _ =>
    manualResult ⟨("setAllowedFrom(address,bool)").toList, [],
      some (("Failed to decode setAllowedFrom function parameters").toList),
      none, none⟩

/-- The injectReward branch (lines 499-526): raw 32-byte word slicing. -/
def injectRewardBranch (O : EthersOracle) (data : JStr) : DecodedFunctionData :=
  let params := jsSlice data (some 10) (some (data.length : Int))
  let timestamp := jsSlice params (some 0) (some 64)
  let amount := jsSlice params (some 64) (some 128)
  match bigNumberFromHex timestamp, bigNumberFromHex amount with
  | some t, some a =>
    manualResult ⟨("injectReward(uint256,uint256)").toList,
      [(("timestamp").toList, formatLargeNumberN O t),
       (("amount").toList, formatLargeNumberN O a)], none, none, none⟩
  | _, _ =>
    manualResult ⟨("injectReward(uint256,uint256)").toList, [],
      some (("Failed to decode injectReward function parameters").toList),
      none, none⟩

/-- The transfer branch (lines 529-557). -/
def transferBranch (data : JStr) : DecodedFunctionData :=
  let params := jsSlice data (some 10) (some (data.length : Int))
  let recipientPadded := jsSlice params (some 0) (some 64)
  let recipient := '0' :: 'x' ::
    jsSlice recipientPadded (some 24) (some (recipientPadded.length : Int))
  let amountHex := jsSlice params (some 64) (some 128)
  match bigNumberFromHex amountHex with
  | some amount =>
    manualResult ⟨("transfer(address,uint256)").toList,
      [(("recipient").toList, recipient.map Char.toLower),
       (("amount").toList, (Nat.repr amount).toList)], none, none, none⟩
  | none =>
    manualResult ⟨("transfer(address,uint256)").toList, [],
      some (("Failed to decode transfer function parameters").toList), none, none⟩

/-- The claim branch (lines 560-580). -/
def claimBranch (O : EthersOracle) (data : JStr) : DecodedFunctionData :=
  match O.decodeClaim data with
  | .ok account =>
    manualResult ⟨("claim(address)").toList,
      [(("account").toList, account.map Char.toLower)], none, none, none⟩
  | .error _ =>
    manualResult ⟨("claim(address)").toList, [],
      some (("Failed to decode claim function parameters").toList), none, none⟩

/-- The swapOwner branch (lines 583-608): pure slicing, cannot throw. -/
def swapOwnerBranch (data : JStr) : DecodedFunctionData :=
  let params := jsSlice data (some 10) (some (data.length : Int))
  let prevOwner := '0' :: 'x' :: jsSlice params (some 24) (some 64)
  let oldOwner := '0' :: 'x' :: jsSlice params (some 88) (some 128)
  let newOwner := '0' :: 'x' :: jsSlice params (some 152) (some 192)
  manualResult ⟨("swapOwner(address,address,address)").toList,
    [(("prevOwner").toList, prevOwner.map Char.toLower),
     (("oldOwner").toList, oldOwner.map Char.toLower),
     (("newOwner").toList, newOwner.map Char.toLower)], none, none, none⟩

/-- The setPeer branch (lines 611-637). -/
def setPeerBranch (O : EthersOracle) (data : JStr) : DecodedFunctionData :=
  let params := jsSlice data (some 10) (some (data.length : Int))
  match bigNumberFromHex (jsSlice params (some 0) (some 64)),
      bigNumberFromHex (jsSlice params (some 128) (some 192)),
      bigNumberFromHex (jsSlice params (some 192) (some 256)) with
  | some peerChainId, some decimals, some inboundLimit =>
    manualResult ⟨("setPeer(uint256,bytes32,uint8,uint256)").toList,
      [(("peerChainId").toList, (Nat.repr peerChainId).toList),
       (("peerContract").toList,
         ('0' :: 'x' :: jsSlice params (some 88) (some 128)).map Char.toLower),
       (("decimals").toList, (Nat.repr decimals).toList),
       (("inboundLimit").toList, formatLargeNumberN O inboundLimit)],
      none, none, none⟩
  | _, _, _ =>
    manualResult ⟨("setPeer(uint256,bytes32,uint8,uint256)").toList, [],
      some (("Failed to decode setPeer function parameters").toList), none, none⟩

/-- The setWormholePeer branch (lines 640-662). -/
def setWormholePeerBranch (data : JStr) : DecodedFunctionData :=
  let params := jsSlice data (some 10) (some (data.length : Int))
  match bigNumberFromHex (jsSlice params (some 0) (some 64)) with
  | some peerChainId =>
    manualResult ⟨("setWormholePeer(uint256,bytes32)").toList,
      [(("peerChainId").toList, (Nat.repr peerChainId).toList),
       (("peerContract").toList,
         ('0' :: 'x' :: jsSlice params (some 88) (some 128)).map Char.toLower)],
      none, none, none⟩
  | none =>
    manualResult ⟨("setWormholePeer(uint256,bytes32)").toList, [],
      some (("Failed to decode setWormholePeer function parameters").toList),
      none, none⟩

/-- The setIsWormholeEvmChain branch (lines 665-687). -/
def setIsWormholeEvmChainBranch (data : JStr) : DecodedFunctionData :=
  let params := jsSlice data (some 10) (some (data.length : Int))
  match bigNumberFromHex (jsSlice params (some 0) (some 64)),
      bigNumberFromHex (jsSlice params (some 64) (some 128)) with
  | some chainId, some isEvmN =>
    manualResult ⟨("setIsWormholeEvmChain(uint256,bool)").toList,
      [(("chainId").toList, (Nat.repr chainId).toList),
       (("isEvm").toList, (if Nat.repr isEvmN = "1" then "true" else "false").toList)],
      none, none, none⟩
  | _, _ =>
    manualResult ⟨("setIsWormholeEvmChain(uint256,bool)").toList, [],
      some (("Failed to decode setIsWormholeEvmChain function parameters").toList),
      none, none⟩

/-- The setIsWormholeRelayingEnabled branch (lines 690-712). -/
def setIsWormholeRelayingEnabledBranch (data : JStr) : DecodedFunctionData :=
  let params := jsSlice data (some 10) (some (data.length : Int))
  match bigNumberFromHex (jsSlice params (some 0) (some 64)),
      bigNumberFromHex (jsSlice params (some 64) (some 128)) with
  | some chainId, some isEnabledN =>
    manualResult ⟨("setIsWormholeRelayingEnabled(uint256,bool)").toList,
      [(("chainId").toList, (Nat.repr chainId).toList),
       (("isEnabled").toList,
         (if Nat.repr isEnabledN = "1" then "true" else "false").toList)],
      none, none, none⟩
  | _, _ =>
    manualResult ⟨("setIsWormholeRelayingEnabled(uint256,bool)").toList, [],
      some (("Failed to decode setIsWormholeRelayingEnabled function parameters").toList),
      none, none⟩

/-- The generic unknown-function terminal result (lines 744-749). -/
def unknownFunctionResult (functionSignature data : JStr) : DecodedFunctionData :=
  ⟨("Unknown Function (").toList ++ functionSignature ++ (")").toList,
    [(("rawData").toList, data)], none, none, none⟩

/-- The candidate loop of the OpenChain path (lines 717-722): first
signature whose structural decode succeeds. -/
def firstDecode (O : EthersOracle) : List JStr → JStr → Option DecodedFunctionData
  | [], _ => none
  | sig :: rest, data =>
    match O.tryDecodeUsingSignature sig data with
    | some d => some d
    | none => firstDecode O rest data

/-- `tryDecodeFunctionData` (decoder.ts lines 377-750, the async variant)
under sequential execution, with fuel for the inner bundle decode of the
multiSend branch. The outer `Option` is `none` only when that inner decode
diverges; the inner `Option DecodedFunctionData` is `none` exactly for the
`null` return on empty/`0x` input. The state is the resolved selector
cache, threaded through the OpenChain fallback. The `catch` around the
OpenChain section is unreachable because `fetchOpenChainFunctionSignatures`
resolves on every failure, so it has no counterpart here. -/
def tryDecodeFunctionData (O : EthersOracle) (net : Net) (fuel : Nat)
    (st : OpenChainState) (data : JStr) :
    Option (Option DecodedFunctionData × OpenChainState) :=
  if data = [] ∨ data = ('0' :: 'x' :: []) then some (none, st)
  else
    let functionSignature := jsSlice data (some 0) (some 10)
    if functionSignature = ("0x8d80ff0a").toList then
      (multiSendBranch fuel data).map (fun r => (some r, st))
    else if functionSignature = ("0x095ea7b3").toList then
      some (some (approveBranch O data), st)
    else if functionSignature = ("0x1ffacdef").toList then
      some (some (setAllowedFromBranch O data), st)
    else if functionSignature = ("0x097cd232").toList then
      some (some (injectRewardBranch O data), st)
    else if functionSignature = ("0xa9059cbb").toList then
      some (some (transferBranch data), st)
    else if functionSignature = ("0x1e83409a").toList then
      some (some (claimBranch O data), st)
    else if functionSignature = ("0xe318b52b").toList then
      some (some (swapOwnerBranch data), st)
    else if functionSignature = ("0x7c918634").toList then
      some (some (setPeerBranch O data), st)
    else if functionSignature = ("0x7ab56403").toList then
      some (some (setWormholePeerBranch data), st)
    else if functionSignature = ("0x96dddc63").toList then
      some (some (setIsWormholeEvmChainBranch data), st)
    else if functionSignature = ("0x657b3b2f").toList then
      some (some (setIsWormholeRelayingEnabledBranch data), st)
    else
      let fetched := fetchOpenChainFunctionSignatures net st functionSignature
      match fetched.1 with
      | [] => some (some (unknownFunctionResult functionSignature data), fetched.2.1)
      | sig0 :: _ =>
        match firstDecode O fetched.1 data with
        | some decoded => some (some (openChainResult decoded fetched.1), fetched.2.1)
        | none =>
          some (some (openChainResult
            ⟨sig0, [],
              some (("Failed to decode using OpenChain signature candidates").toList),
              none, none⟩ fetched.1), fetched.2.1)

/-- The selector literals of the manual decoding rules of
`tryDecodeFunctionData`. -/
def manualSelectors : List JStr :=
  [("0x8d80ff0a").toList, ("0x095ea7b3").toList, ("0x1ffacdef").toList,
   ("0x097cd232").toList, ("0xa9059cbb").toList, ("0x1e83409a").toList,
   ("0xe318b52b").toList, ("0x7c918634").toList, ("0x7ab56403").toList,
   ("0x96dddc63").toList, ("0x657b3b2f").toList]

/-- A network on which every request fails at the transport layer. -/
def failNet : Net := fun _ => .netFailure

/-- A reachable service that knows no selectors (zero candidates). -/
def emptyNet : Net := fun _ => .ok []

/-- A trivial instantiation of the abstract ethers machinery, for closed
counterexamples and witnesses (none of them reach the oracled branches). -/
def oracleNone : EthersOracle :=
  ⟨fun _ _ => none, fun _ => .error [], fun _ => .error [], fun _ => .error [],
    fun _ => []⟩

/-! ## Theorems -/

lemma normalizeHexString_eq_amended (s : JStr) :
    normalizeHexString s = normalizeHexAmended s := by
  unfold normalizeHexString normalizeHexAmended
  by_cases h0 : s = []
  · simp [h0]
  · simp only [if_neg h0]
    by_cases h1 : (if startsWith0x s then s.drop 2 else s) = []
    · simp [h1]
    · simp only [if_neg h1]
      rcases Nat.mod_two_eq_zero_or_one (if startsWith0x s then s.drop 2 else s).length
        with h2 | h2 <;> simp [h2]

lemma normalizeHexStringCk_eq_amended (s : JStr) (h : s ≠ []) :
    normalizeHexStringCk s = normalizeHexAmended s := by
  unfold normalizeHexStringCk normalizeHexAmended
  simp only [if_neg h]
  by_cases h1 : (if startsWith0x s then s.drop 2 else s) = []
  · -- after stripping `0x` nothing remains: both sides are `0x`
    rcases h2 : startsWith0x s with _ | _
    · simp [h2] at h1; exact absurd h1 h
    · simp [h2] at h1 ⊢
      simp [h1]
  · simp only [if_neg h1]
    rcases Nat.mod_two_eq_zero_or_one (if startsWith0x s then s.drop 2 else s).length
      with h2 | h2 <;> simp [h2]

/-- Every output of `normalizeHexString` is `0x` or `0x` followed by a
nonempty even-length body. -/
lemma normalizeHexString_shape (s : JStr) :
    normalizeHexString s = ['0', 'x'] ∨
      ∃ t, normalizeHexString s = '0' :: 'x' :: t ∧ t ≠ [] ∧ t.length % 2 = 0 := by
  unfold normalizeHexString
  by_cases h0 : s = []
  · left; simp [h0]
  · simp only [if_neg h0]
    by_cases h1 : (if startsWith0x s then s.drop 2 else s) = []
    · left; simp [h1]
    · right
      simp only [if_neg h1]
      rcases Nat.mod_two_eq_zero_or_one (if startsWith0x s then s.drop 2 else s).length
        with h2 | h2
      · exact ⟨_, by simp [h2], h1, h2⟩
      · refine ⟨'0' :: (if startsWith0x s then s.drop 2 else s), by simp [h2], by simp, ?_⟩
        simp [List.length_cons, Nat.add_mod, h2]

/-- A `0x`-prefixed string with a nonempty even-length body is a fixed point
of `normalizeHexString`. -/
lemma normalizeHexString_fixed (t : JStr) (h1 : t ≠ []) (h2 : t.length % 2 = 0) :
    normalizeHexString ('0' :: 'x' :: t) = '0' :: 'x' :: t := by
  unfold normalizeHexString
  have hpre : startsWith0x ('0' :: 'x' :: t) = true := by simp [startsWith0x]
  simp [hpre, h1, h2]

/-- C8: hex normalization is idempotent — for every string input,
`normalizeHexString (normalizeHexString x) = normalizeHexString x`. -/
theorem normalizeHexString_idempotent (s : JStr) :
    normalizeHexString (normalizeHexString s) = normalizeHexString s := by
  rcases normalizeHexString_shape s with h | ⟨t, h, ht, he⟩
  · rw [h]; decide
  · rw [h]; exact normalizeHexString_fixed t ht he

lemma cmpTail_numCompareTail : ∀ bs : List Int,
    (cmpTail bs < 0 ↔ numCompareTail bs = .lt) ∧
    (0 < cmpTail bs ↔ numCompareTail bs = .gt) := by
  intro bs
  induction bs with
  | nil => simp [cmpTail, numCompareTail]
  | cons b bs ih =>
    by_cases hb : b = 0
    · subst hb; simpa [cmpTail, numCompareTail] using ih
    · rcases lt_or_gt_of_ne hb with h | h <;>
        simp [cmpTail, numCompareTail, hb, h, not_lt_of_gt h] <;> omega

lemma cmpLoop_numCompare : ∀ as bs : List Int,
    (cmpLoop as bs < 0 ↔ numCompare as bs = .lt) ∧
    (0 < cmpLoop as bs ↔ numCompare as bs = .gt) := by
  intro as
  induction as with
  | nil =>
    intro bs
    simpa [cmpLoop, numCompare] using cmpTail_numCompareTail bs
  | cons a as ih =>
    intro bs
    cases bs with
    | nil =>
      by_cases ha : a = 0
      · subst ha; simpa [cmpLoop, numCompare] using ih []
      · rcases lt_or_gt_of_ne ha with h | h <;>
          simp [cmpLoop, numCompare, ha, h, not_lt_of_gt h] <;> omega
    | cons b bs =>
      by_cases hab : a = b
      · subst hab; simpa [cmpLoop, numCompare] using ih bs
      · rcases lt_or_gt_of_ne hab with h | h <;>
          simp [cmpLoop, numCompare, hab, h, not_lt_of_gt h] <;> omega

lemma dropWhile_eq_self_of (p : Char → Bool) (s : JStr)
    (h : ∀ c ∈ s, p c = false) : s.dropWhile p = s := by
  cases s with
  | nil => rfl
  | cons c t => simp [List.dropWhile_cons, h c (by simp)]

lemma jsTrim_of (s : JStr) (h : ∀ c ∈ s, jsIsSpace c = false) : jsTrim s = s := by
  unfold jsTrim
  rw [dropWhile_eq_self_of _ _ h, dropWhile_eq_self_of, List.reverse_reverse]
  intro c hc
  exact h c (by simpa using hc)

lemma digit_not_space (c : Char) (h : isDecDigit c = true) : jsIsSpace c = false := by
  unfold isDecDigit at h
  unfold jsIsSpace
  rw [decide_eq_true_eq] at h
  rw [decide_eq_false_iff_not]
  rintro (rfl | rfl | rfl | rfl | rfl | rfl) <;> revert h <;> decide

lemma jsNumber_digitRun (c : JStr) (hne : c ≠ [])
    (hd : ∀ ch ∈ c, isDecDigit ch = true) :
    jsNumber c = some (Int.ofNat (decRunVal c)) := by
  have htrim : jsTrim c = c :=
    jsTrim_of c (fun ch hch => digit_not_space ch (hd ch hch))
  have hsign : ¬(c.head? = some '-' ∨ c.head? = some '+') := by
    cases c with
    | nil => simp
    | cons ch t =>
      have hch := hd ch (by simp)
      rintro (h | h) <;> simp at h <;> subst h <;> revert hch <;> decide
  have hneg : (decide (c.head? = some '-')) = false := by
    rw [decide_eq_false_iff_not]
    exact fun h => hsign (Or.inl h)
  simp only [jsNumber, htrim, if_neg hne, if_neg hsign, hneg, if_false,
    Bool.false_eq_true, ite_false]
  rw [if_pos ⟨hne, by rw [List.all_eq_true]; exact hd⟩, one_mul]

lemma digitVersion_map (v : JStr) (h : digitVersion v = true) :
    (splitOnDot (jsTrim v)).map (fun c => (jsNumber c).getD 0) = versionComponents v := by
  unfold versionComponents
  apply List.map_congr_left
  intro c hc
  unfold digitVersion at h
  rw [List.all_eq_true] at h
  have hc2 := h c hc
  rw [Bool.and_eq_true] at hc2
  have hne : c ≠ [] := by
    intro hnil
    rw [hnil] at hc2
    simp at hc2
  have hdig : ∀ ch ∈ c, isDecDigit ch = true := by
    intro ch hch
    have := hc2.2
    rw [List.all_eq_true] at this
    exact this ch hch
  rw [jsNumber_digitRun c hne hdig]
  rfl

lemma compareVersions_numeric (v w : JStr) (hv : digitVersion v = true) :
    compareVersions (jsTrim v) w
      = cmpLoop (versionComponents v)
          ((splitOnDot w).map (fun c => (jsNumber c).getD 0)) := by
  unfold compareVersions
  rw [digitVersion_map v hv]

lemma compareVersions_120_iff (v : JStr) (h : digitVersion v = true) :
    (compareVersions (jsTrim v) ("1.2.0".toList) ≤ 0)
      ↔ numCompare (versionComponents v) [1, 2, 0] ≠ .gt := by
  rw [compareVersions_numeric v _ h]
  have hw : (splitOnDot ("1.2.0".toList)).map (fun c => (jsNumber c).getD 0)
      = [1, 2, 0] := by decide
  rw [hw]
  rcases cmpLoop_numCompare (versionComponents v) [1, 2, 0] with ⟨_, h2⟩
  constructor
  · intro hle hgt
    exact absurd (h2.mpr hgt) (by omega)
  · intro hgt
    by_contra hlt
    exact hgt (h2.mp (by omega))

lemma compareVersions_100_iff (v : JStr) (h : digitVersion v = true) :
    (compareVersions (jsTrim v) ("1.0.0".toList) < 0)
      ↔ numCompare (versionComponents v) [1, 0, 0] = .lt := by
  rw [compareVersions_numeric v _ h]
  have hw : (splitOnDot ("1.0.0".toList)).map (fun c => (jsNumber c).getD 0)
      = [1, 0, 0] := by decide
  rw [hw]
  exact (cmpLoop_numCompare (versionComponents v) [1, 0, 0]).1

lemma calculateDomainHash_eq_spec (v safeAddress chainId : JStr)
    (h : digitVersion v = true) :
    calculateDomainHash v safeAddress chainId
      = calculateDomainHashSpec v safeAddress chainId := by
  unfold calculateDomainHash calculateDomainHashSpec
  exact if_congr (compareVersions_120_iff v h) rfl rfl

/-- C1: for every version string with numeric (decimal-digit) dot-separated
components and all other inputs fixed, `calculateHashes` selects its hashing
variants by numeric per-component comparison: versions numerically at most
`1.2.0` hash the two-field domain tuple `(domainTypeHash, safeAddress)`,
versions strictly above `1.2.0` the three-field tuple
`(domainTypeHash, chainId, safeAddress)`, and versions strictly below
`1.0.0` use the legacy transaction type-hash constant while `1.0.0` and
above use the current one — i.e. the code agrees with the spec-side
calculator that uses genuine numeric comparison. -/
theorem calculateHashes_version_variant_selection
    (chainId address toAddr value data operation safeTxGas baseGas gasPrice
      gasToken refundReceiver nonce v : JStr) (h : digitVersion v = true) :
    calculateHashes chainId address toAddr value data operation safeTxGas baseGas
        gasPrice gasToken refundReceiver nonce v
      = calculateHashesSpec chainId address toAddr value data operation safeTxGas
          baseGas gasPrice gasToken refundReceiver nonce v
    ∧ calculateDomainHash v address chainId
      = calculateDomainHashSpec v address chainId := by
  refine ⟨?_, calculateDomainHash_eq_spec v address chainId h⟩
  unfold calculateHashes calculateHashesSpec
  have hd : ∀ a c, calculateDomainHash v a c = calculateDomainHashSpec v a c :=
    fun a c => calculateDomainHash_eq_spec v a c h
  simp only [hd, show
    (if compareVersions (jsTrim v) ("1.0.0".toList) < 0 then SAFE_TX_TYPEHASH_OLD
      else SAFE_TX_TYPEHASH)
    = (if numCompare (versionComponents v) [1, 0, 0] = .lt then SAFE_TX_TYPEHASH_OLD
      else SAFE_TX_TYPEHASH)
    from if_congr (compareVersions_100_iff v h) rfl rfl]

/-- C1 witness: the boundary version `1.2.0` at concrete inputs. -/
theorem calculateHashes_version_variant_selection_witness :
    calculateHashes ("1".toList)
        ("0xc71605ab3ea0e614a1e2e11b77e353ee964a44ef".toList)
        ("0xef4461891dfb3ac8572ccf7c794664a8dd927945".toList)
        ("0".toList) ("0x".toList) ("0".toList) ("0".toList) ("0".toList)
        ("0".toList) ("0x0000000000000000000000000000000000000000".toList)
        ("0x0000000000000000000000000000000000000000".toList) ("5".toList)
        ("1.2.0".toList)
      = calculateHashesSpec ("1".toList)
        ("0xc71605ab3ea0e614a1e2e11b77e353ee964a44ef".toList)
        ("0xef4461891dfb3ac8572ccf7c794664a8dd927945".toList)
        ("0".toList) ("0x".toList) ("0".toList) ("0".toList) ("0".toList)
        ("0".toList) ("0x0000000000000000000000000000000000000000".toList)
        ("0x0000000000000000000000000000000000000000".toList) ("5".toList)
        ("1.2.0".toList)
    ∧ calculateDomainHash ("1.2.0".toList)
        ("0xc71605ab3ea0e614a1e2e11b77e353ee964a44ef".toList) ("1".toList)
      = calculateDomainHashSpec ("1.2.0".toList)
        ("0xc71605ab3ea0e614a1e2e11b77e353ee964a44ef".toList) ("1".toList) :=
  calculateHashes_version_variant_selection _ _ _ _ _ _ _ _ _ _ _ _ _ (by decide)

lemma take_append_len (xs ys : JStr) (n : Nat) (h : xs.length = n) :
    (xs ++ ys).take n = xs := by subst h; exact List.take_left xs ys

lemma drop_append_len (xs ys : JStr) (n : Nat) (h : xs.length = n) :
    (xs ++ ys).drop n = ys := by subst h; exact List.drop_left xs ys

lemma jsSlice_nonneg (s : JStr) (a b : Int) (ha : 0 ≤ a) (hb : 0 ≤ b) :
    jsSlice s (some a) (some b) = (s.drop a.toNat).take (b.toNat - a.toNat) := by
  unfold jsSlice clampIdx
  simp only [Option.getD_some]
  rw [if_neg (show ¬(a < 0) by omega), if_neg (show ¬(b < 0) by omega)]
  by_cases h : min a.toNat s.length < min b.toNat s.length
  · rw [if_pos h]
    have ha2 : a.toNat < s.length := by omega
    have hmin : min a.toNat s.length = a.toNat := by omega
    rw [hmin]
    by_cases hb2 : b.toNat ≤ s.length
    · rw [min_eq_left hb2]
    · have hm2 : min b.toNat s.length = s.length := by omega
      rw [hm2]
      rw [List.take_of_length_le, List.take_of_length_le] <;>
        simp [List.length_drop] <;> omega
  · rw [if_neg h]
    by_cases hab : b.toNat ≤ a.toNat
    · have hz : b.toNat - a.toNat = 0 := by omega
      rw [hz]
      simp
    · have hlen : s.length ≤ a.toNat := by omega
      rw [List.drop_eq_nil_of_le hlen]
      simp

/-- C2 amended: the bundle decoder performs no remaining-byte sufficiency
check — when the declared data length exceeds the bytes left, it returns a
transaction whose `data` is the entire remainder while the recorded
`dataLength` is the declared byte count, silently truncating instead of
surfacing a malformed-bundle failure. -/
theorem decodeMultiSend_truncation_behavior (n : Nat)
    (op addr val lenHex rest : JStr) (L : Nat)
    (hop : op.length = 2) (haddr : addr.length = 40) (hval : val.length = 64)
    (hlen : lenHex.length = 64)
    (hvhex : val.all isHexDigit = true)
    (hparse : parseIntHex lenHex = some (L : Int))
    (hrest : rest.length < 2 * L)
    (hpfx : startsWith0x (op ++ (addr ++ (val ++ (lenHex ++ rest)))) = false)
    (heven : (op ++ (addr ++ (val ++ (lenHex ++ rest)))).length % 2 = 0) :
    decodeMultiSendTransactions (n + 2) (op ++ (addr ++ (val ++ (lenHex ++ rest))))
      = some (.ok [⟨parseIntHex op, '0' :: 'x' :: addr, hexRunVal val,
          some (L : Int), '0' :: 'x' :: rest⟩]) := by
  set s := op ++ (addr ++ (val ++ (lenHex ++ rest))) with hs
  have hslen : s.length = 170 + rest.length := by
    simp [hs, hop, haddr, hval, hlen]
    omega
  have hsne : s ≠ [] := by
    intro h
    rw [h] at hslen
    simp at hslen
    omega
  have hnorm : normalizeHexString s = '0' :: 'x' :: s := by
    unfold normalizeHexString
    rw [if_neg hsne]
    simp only [hpfx, Bool.false_eq_true, if_false]
    rw [if_neg hsne]
    simp [heven]
  have hwrap : decodeMultiSendTransactions (n + 2) s
      = decodeMultiSendGo s (n + 2) (some 0) [] := by
    unfold decodeMultiSendTransactions
    rw [hnorm]
    have h0x : startsWith0x ('0' :: 'x' :: s) = true := by simp [startsWith0x]
    simp only [h0x, if_true, List.drop_succ_cons, List.drop_zero]
    rw [if_neg hsne]
  rw [hwrap]
  have h2 : s.drop 2 = addr ++ (val ++ (lenHex ++ rest)) := by
    rw [hs]; exact drop_append_len _ _ _ hop
  have h42 : s.drop 42 = val ++ (lenHex ++ rest) := by
    rw [show (42 : Nat) = 2 + 40 from rfl, ← List.drop_drop, h2]
    exact drop_append_len _ _ _ haddr
  have h106 : s.drop 106 = lenHex ++ rest := by
    rw [show (106 : Nat) = 42 + 64 from rfl, ← List.drop_drop, h42]
    exact drop_append_len _ _ _ hval
  have h170 : s.drop 170 = rest := by
    rw [show (170 : Nat) = 106 + 64 from rfl, ← List.drop_drop, h106]
    exact drop_append_len _ _ _ hlen
  have sl2 : jsSlice s (some (0 + 2)) (some (0 + 42)) = addr := by
    rw [jsSlice_nonneg s _ _ (by omega) (by omega)]
    show (s.drop 2).take 40 = addr
    rw [h2]
    exact take_append_len _ _ _ haddr
  have sl3 : jsSlice s (some (0 + 42)) (some (0 + 106)) = val := by
    rw [jsSlice_nonneg s _ _ (by omega) (by omega)]
    show (s.drop 42).take 64 = val
    rw [h42]
    exact take_append_len _ _ _ hval
  have sl4 : jsSlice s (some (0 + 106)) (some (0 + 170)) = lenHex := by
    rw [jsSlice_nonneg s _ _ (by omega) (by omega)]
    show (s.drop 106).take 64 = lenHex
    rw [h106]
    exact take_append_len _ _ _ hlen
  have hbig : bigNumberFromHex val = some (hexRunVal val) := by
    unfold bigNumberFromHex
    rw [if_pos ⟨by intro h; rw [h] at hval; simp at hval, hvhex⟩]
  have sl5 : jsSlice s (some (0 + 170)) (some (0 + 170 + (L : Int) * 2)) = rest := by
    rw [jsSlice_nonneg s _ _ (by omega) (by omega)]
    have ha : ((0 : Int) + 170).toNat = 170 := by omega
    have hb : ((0 : Int) + 170 + (L : Int) * 2).toNat = 170 + 2 * L := by omega
    rw [ha, hb, h170]
    have hsub : 170 + 2 * L - 170 = 2 * L := by omega
    rw [hsub]
    exact List.take_of_length_le (by omega)
  have hc0 : (0 : Int) < (s.length : Int) := by
    rw [hslen]; push_cast; omega
  have hlt : ¬((0 : Int) + 170 + (L : Int) * 2 < (s.length : Int)) := by
    rw [hslen]; push_cast; omega
  show decodeMultiSendGo s (n + 1 + 1) (some 0) [] = _
  simp only [decodeMultiSendGo]
  rw [if_pos hc0]
  simp only [sl2, sl3, sl4, sl5, hbig, hparse, Option.map_some']
  simp only [decodeMultiSendGo]
  rw [if_neg hlt]
  simp only [List.reverse_cons, List.reverse_nil, List.nil_append]
  have sl1 : jsSlice s (some 0) (some 2) = op := by
    rw [jsSlice_nonneg s _ _ (by omega) (by omega)]
    show (s.drop 0).take 2 = op
    rw [List.drop_zero, hs]
    exact take_append_len _ _ _ hop
  simp [sl1]

set_option maxRecDepth 10000 in
/-- C2 counterexample: a bundle entry declaring 4 data bytes with only 1
byte remaining makes both `decodeMultiSendTransactions` variants return a
result (not a failure) recording `dataLength = 4` against 1 byte of data. -/
theorem decodeMultiSend_truncated_returns_result :
    decodeMultiSendTransactions 2 c2input
      = some (.ok [⟨some 0, ("0xef4461891dfb3ac8572ccf7c794664a8dd927945").toList, 0,
          some 4, ("0xab").toList⟩])
    ∧ decodeMultiSendTransactionsV2 2 c2input
      = some (.ok [⟨some 0, ("0xef4461891dfb3ac8572ccf7c794664a8dd927945").toList, 0,
          some 4, ("0xab").toList⟩])
    ∧ (("0xab").toList.length - 2) / 2 = 1 := ⟨rfl, rfl, rfl⟩

set_option maxRecDepth 10000 in
/-- C2 amended witness: the truncated bundle of the counterexample, through
the general truncation theorem. -/
theorem decodeMultiSend_truncation_behavior_witness :
    decodeMultiSendTransactions 2
        (("00").toList ++ (("ef4461891dfb3ac8572ccf7c794664a8dd927945").toList
          ++ (("0000000000000000000000000000000000000000000000000000000000000000").toList
            ++ (("0000000000000000000000000000000000000000000000000000000000000004").toList
              ++ ("ab").toList))))
      = some (.ok [⟨parseIntHex (("00").toList),
          '0' :: 'x' :: ("ef4461891dfb3ac8572ccf7c794664a8dd927945").toList,
          hexRunVal (("0000000000000000000000000000000000000000000000000000000000000000").toList),
          some (4 : Int), '0' :: 'x' :: ("ab").toList⟩]) :=
  decodeMultiSend_truncation_behavior 0 _ _ _ _ _ 4 (by decide) (by decide) (by decide)
    (by decide) (by decide) (by decide) (by decide) (by decide) (by decide)

set_option maxRecDepth 10000 in
lemma c10_step (n : Nat) (acc : List DecodedTransaction) :
    decodeMultiSendGo c10input (n + 1) (some 0) acc
      = decodeMultiSendGo c10input n (some 0) (c10tx :: acc) := rfl

lemma c10_go_diverges : ∀ (n : Nat) (acc : List DecodedTransaction),
    decodeMultiSendGo c10input n (some 0) acc = none := by
  intro n
  induction n with
  | zero => intro acc; rfl
  | succ m ih =>
    intro acc
    rw [c10_step m acc]
    exact ih _

set_option maxRecDepth 10000 in
/-- C10 counterexample: on `c10input` — whose data-length field reads
`-55zz…z`, which `parseInt(_,16)` parses to `-0x55 = -85` — each loop
iteration returns the cursor to position 0 without throwing, so
`decodeMultiSendTransactions` never terminates: it runs out of any amount
of fuel. -/
theorem decodeMultiSend_divergent_input : decodeMultiSendDiverges c10input := by
  intro fuel
  show decodeMultiSendGo c10input fuel (some 0) [] = none
  exact c10_go_diverges fuel []

lemma hexDigit_not_space (c : Char) (h : isHexDigit c = true) : jsIsSpace c = false := by
  unfold jsIsSpace
  rw [decide_eq_false_iff_not]
  rintro (rfl | rfl | rfl | rfl | rfl | rfl) <;> revert h <;> decide

lemma takeWhile_eq_self_of (p : Char → Bool) (s : JStr)
    (h : ∀ c ∈ s, p c = true) : s.takeWhile p = s := by
  induction s with
  | nil => rfl
  | cons c t ih =>
    rw [List.takeWhile_cons, if_pos (h c (by simp))]
    rw [ih (fun x hx => h x (by simp [hx]))]

lemma jsSlice_mem (s : JStr) (a b : Option Int) (x : Char)
    (hx : x ∈ jsSlice s a b) : x ∈ s := by
  simp only [jsSlice] at hx
  split at hx
  · exact List.mem_of_mem_drop (List.mem_of_mem_take hx)
  · cases hx

lemma parseIntHex_hexdigits (l : JStr) (h : ∀ c ∈ l, isHexDigit c = true) :
    (l = [] ∧ parseIntHex l = none)
      ∨ (l ≠ [] ∧ parseIntHex l = some ((hexRunVal l : Nat) : Int)) := by
  cases hl : l with
  | nil => exact Or.inl ⟨rfl, rfl⟩
  | cons c t =>
    subst hl
    right
    refine ⟨by simp, ?_⟩
    have hdrop : (c :: t).dropWhile jsIsSpace = c :: t :=
      dropWhile_eq_self_of _ _ (fun x hx => hexDigit_not_space x (h x hx))
    have hc := h c (by simp)
    have hsign : ¬((c :: t).head? = some '-' ∨ (c :: t).head? = some '+') := by
      rintro (hh | hh) <;> simp at hh <;> subst hh <;> revert hc <;> decide
    have hneg : (decide ((c :: t).head? = some '-')) = false := by
      rw [decide_eq_false_iff_not]
      exact fun hh => hsign (Or.inl hh)
    have hpre : ¬((c :: t).take 2 = ['0', 'x'] ∨ (c :: t).take 2 = ['0', 'X']) := by
      rintro (hh | hh) <;> cases t with
      | nil => simp at hh
      | cons d u =>
        simp [List.take] at hh
        have hd := h d (by simp)
        rw [hh.2] at hd
        revert hd
        decide
    have htw : (c :: t).takeWhile isHexDigit = c :: t :=
      takeWhile_eq_self_of _ _ h
    simp only [parseIntHex, hdrop, if_neg hsign, hneg, htw,
      if_neg (by simp : ¬(c :: t) = []), hpre, ite_false, Bool.false_eq_true,
      if_false, one_mul]
    rfl

lemma decodeMultiSendGo_hex_terminates (hex : JStr)
    (hhex : ∀ c ∈ hex, isHexDigit c = true) :
    ∀ (n : Nat) (c : Int) (acc : List DecodedTransaction),
      (hex.length : Int) - c ≤ 170 * n →
      decodeMultiSendGo hex (n + 2) (some c) acc ≠ none := by
  intro n
  induction n with
  | zero =>
    intro c acc hc
    have hge : ¬(c < (hex.length : Int)) := by omega
    show decodeMultiSendGo hex (0 + 1 + 1) (some c) acc ≠ none
    simp only [decodeMultiSendGo, if_neg hge]
    simp
  | succ m ih =>
    intro c acc hc
    by_cases hlt : c < (hex.length : Int)
    · show decodeMultiSendGo hex (m + 2 + 1) (some c) acc ≠ none
      simp only [decodeMultiSendGo]
      rw [if_pos hlt]
      cases hbv : bigNumberFromHex (jsSlice hex (some (c + 42)) (some (c + 106))) with
      | none => simp [hbv]
      | some v =>
        simp only [hbv]
        have hlhhex : ∀ ch ∈ jsSlice hex (some (c + 106)) (some (c + 170)),
            isHexDigit ch = true :=
          fun ch hch => hhex ch (jsSlice_mem _ _ _ _ hch)
        rcases parseIntHex_hexdigits _ hlhhex with ⟨_, hpi⟩ | ⟨_, hpi⟩
        · simp only [hpi, Option.map_none']
          show decodeMultiSendGo hex (m + 1 + 1) none _ ≠ none
          simp [decodeMultiSendGo]
        · simp only [hpi, Option.map_some']
          apply ih
          have hnn : (0 : Int) ≤ ((hexRunVal (jsSlice hex (some (c + 106))
              (some (c + 170))) : Nat) : Int) := by positivity
          omega
    · show decodeMultiSendGo hex (m + 2 + 1) (some c) acc ≠ none
      simp only [decodeMultiSendGo, if_neg hlt]
      simp

/-- C10 amended: on every input consisting of hex digits only, parsed data
lengths are nonnegative, each iteration advances the cursor by at least 170
characters (or a `NaN` cursor ends the loop), and the parse terminates
within `length + 3` iterations of fuel. -/
theorem decodeMultiSend_terminates_on_hexdigit_input (s : JStr)
    (h : ∀ c ∈ s, isHexDigit c = true) :
    ∃ r, decodeMultiSendTransactions (s.length + 3) s = some r := by
  cases hs : s with
  | nil => exact ⟨.ok [], rfl⟩
  | cons a t =>
    subst hs
    have hpfx : startsWith0x (a :: t) = false := by
      unfold startsWith0x
      rw [decide_eq_false_iff_not]
      cases t with
      | nil => simp [List.take]
      | cons b u =>
        intro hh
        simp [List.take] at hh
        have hb := h b (by simp)
        rw [hh.2] at hb
        revert hb
        decide
    have hne : (a :: t) ≠ [] := by simp
    set body : JStr := if (a :: t).length % 2 ≠ 0 then '0' :: a :: t else a :: t with hbody
    have hnorm : normalizeHexString (a :: t) = '0' :: 'x' :: body := by
      unfold normalizeHexString
      rw [if_neg hne]
      simp only [hpfx, Bool.false_eq_true, if_false]
      rw [if_neg hne]
    have hbodyhex : ∀ c ∈ body, isHexDigit c = true := by
      rw [hbody]
      split
      · rintro c hc
        rcases List.mem_cons.mp hc with rfl | hc2
        · decide
        · exact h c hc2
      · exact h
    have hbodyne : body ≠ [] := by
      rw [hbody]; split <;> simp
    have hbodylen : body.length ≤ (a :: t).length + 1 := by
      rw [hbody]; split <;> simp
    have hwrap : decodeMultiSendTransactions ((a :: t).length + 3) (a :: t)
        = decodeMultiSendGo body ((a :: t).length + 3) (some 0) [] := by
      unfold decodeMultiSendTransactions
      rw [hnorm]
      have h0x : startsWith0x ('0' :: 'x' :: body) = true := by simp [startsWith0x]
      simp only [h0x, if_true, List.drop_succ_cons, List.drop_zero]
      rw [if_neg hbodyne]
    rw [hwrap]
    have hterm := decodeMultiSendGo_hex_terminates body hbodyhex ((a :: t).length + 1) 0 []
      (by push_cast; omega)
    rw [show (a :: t).length + 3 = (a :: t).length + 1 + 2 from rfl]
    exact Option.ne_none_iff_exists'.mp hterm

/-- C10 amended witness: the two-character hex input `00` terminates (with
a thrown `BigNumber` error, which is a finished computation, not a hang). -/
theorem decodeMultiSend_terminates_witness :
    ∃ r, decodeMultiSendTransactions 5 (("00").toList) = some r :=
  decodeMultiSend_terminates_on_hexdigit_input (("00").toList) (by decide)

set_option maxRecDepth 10000 in
/-- C3 counterexample: with every other input valid, version `"abc"` does
not raise: `Number('abc')` is `NaN`, `aParts[i] || 0` coerces it to `0`, and
`calculateHashes` returns hashes normally — the very same hashes as for the
real legacy version `"0.9.0"` (legacy type-hash, two-field domain). -/
theorem calculateHashes_nonnumeric_version_returns :
    isOkE (calculateHashes (("1").toList) c3addr c3addr (("0").toList)
        (("0x").toList) (("0").toList) (("0").toList) (("0").toList)
        (("0").toList) zeroAddr zeroAddr (("0").toList) (("abc").toList)) = true
    ∧ calculateHashes (("1").toList) c3addr c3addr (("0").toList)
        (("0x").toList) (("0").toList) (("0").toList) (("0").toList)
        (("0").toList) zeroAddr zeroAddr (("0").toList) (("abc").toList)
      = calculateHashes (("1").toList) c3addr c3addr (("0").toList)
        (("0x").toList) (("0").toList) (("0").toList) (("0").toList)
        (("0").toList) zeroAddr zeroAddr (("0").toList) (("0.9.0").toList) :=
  ⟨by decide, by rfl⟩

lemma cmpLoop_zeros : ∀ (as bs : List Int), (∀ a ∈ as, a = 0) →
    cmpLoop as bs = cmpLoop [] bs := by
  intro as
  induction as with
  | nil => intro bs _; rfl
  | cons a t ih =>
    intro bs h
    have ha : a = 0 := h a (by simp)
    subst ha
    have ht : ∀ x ∈ t, x = 0 := fun x hx => h x (by simp [hx])
    cases bs with
    | nil =>
      show cmpLoop (0 :: t) [] = cmpLoop [] []
      have h0 := ih [] ht
      simp only [cmpLoop, cmpTail, ne_eq, not_true_eq_false, ite_false] at h0 ⊢
      simpa using h0
    | cons b bs2 =>
      show cmpLoop (0 :: t) (b :: bs2) = cmpLoop [] (b :: bs2)
      have h0 := ih bs2 ht
      by_cases hb : (0 : Int) = b
      · subst hb
        simp only [cmpLoop, cmpTail, ne_eq, not_true_eq_false, ite_false] at h0 ⊢
        simpa using h0
      · simp only [cmpLoop, cmpTail, ne_eq, hb, not_false_eq_true, ite_true]

lemma compareVersions_zeros (v w : JStr)
    (h : ∀ c ∈ splitOnDot (jsTrim v), jsNumber c = none ∨ jsNumber c = some 0) :
    compareVersions (jsTrim v) w = compareVersions (jsTrim (("0").toList)) w := by
  unfold compareVersions
  have h1 : ∀ a ∈ (splitOnDot (jsTrim v)).map (fun c => (jsNumber c).getD 0), a = 0 := by
    intro a ha
    rcases List.mem_map.mp ha with ⟨c, hc, rfl⟩
    rcases h c hc with h2 | h2 <;> rw [h2] <;> rfl
  have h2 : ∀ a ∈ (splitOnDot (jsTrim (("0").toList))).map
      (fun c => (jsNumber c).getD 0), a = 0 := by decide
  rw [cmpLoop_zeros _ _ h1, cmpLoop_zeros _ _ h2]

/-- C3 amended: a non-numeric version component is a `NaN` that the
`aParts[i] || 0` fallback coerces to `0`, so `calculateHashes` silently
treats such a version exactly like version `"0"` (legacy type-hash,
two-field domain) and returns hashes rather than raising. -/
theorem calculateHashes_nonnumeric_version_as_zero
    (chainId address toAddr value data operation safeTxGas baseGas gasPrice
      gasToken refundReceiver nonce v : JStr)
    (h : ∀ c ∈ splitOnDot (jsTrim v), jsNumber c = none ∨ jsNumber c = some 0) :
    calculateHashes chainId address toAddr value data operation safeTxGas baseGas
        gasPrice gasToken refundReceiver nonce v
      = calculateHashes chainId address toAddr value data operation safeTxGas
          baseGas gasPrice gasToken refundReceiver nonce (("0").toList) := by
  have h10 : compareVersions (jsTrim v) (("1.0.0").toList)
      = compareVersions (jsTrim (("0").toList)) (("1.0.0").toList) :=
    compareVersions_zeros v _ h
  have hdom : ∀ A C, calculateDomainHash v A C
      = calculateDomainHash (("0").toList) A C := by
    intro A C
    simp only [calculateDomainHash]
    rw [compareVersions_zeros v _ h]
  unfold calculateHashes
  simp only [hdom, h10]

/-- C3 amended witness: version `"abc"` at concrete inputs. -/
theorem calculateHashes_nonnumeric_version_as_zero_witness :
    calculateHashes (("1").toList) c3addr c3addr (("0").toList)
        (("0x").toList) (("0").toList) (("0").toList) (("0").toList)
        (("0").toList) zeroAddr zeroAddr (("0").toList) (("abc").toList)
      = calculateHashes (("1").toList) c3addr c3addr (("0").toList)
        (("0x").toList) (("0").toList) (("0").toList) (("0").toList)
        (("0").toList) zeroAddr zeroAddr (("0").toList) (("0").toList) :=
  calculateHashes_nonnumeric_version_as_zero _ _ _ _ _ _ _ _ _ _ _ _ _ (by decide)

/-- C7 counterexample: an uppercase `0X` prefix is not stripped (the source
checks `startsWith('0x')` case-sensitively), so `normalizeHexString "0X12"`
is `"0x0X12"`, not the `"0x12"` the claim requires; and the checksums
variant returns empty input unchanged (`""`), not the canonical `"0x"`. -/
theorem normalizeHex_uppercase_prefix_kept :
    normalizeHexString (("0X12").toList) = ("0x0X12").toList
    ∧ normalizeHexString (("0X12").toList) ≠ ("0x12").toList
    ∧ normalizeHexStringCk [] = []
    ∧ ([] : JStr) ≠ ("0x").toList :=
  ⟨rfl, by decide, rfl, by decide⟩

/-- C7 amended: the normalizer strips an optional lowercase `0x` prefix
only, left-pads with one `0` when the remainder has odd length, and
re-prefixes `0x`; empty input yields `0x` in the decoder variant, while the
checksums variant returns empty input unchanged and agrees with the decoder
variant on every nonempty input. -/
theorem normalizeHex_amended_contract :
    (∀ s : JStr, normalizeHexString s = normalizeHexAmended s)
    ∧ (∀ s : JStr, s ≠ [] → normalizeHexStringCk s = normalizeHexAmended s)
    ∧ normalizeHexString [] = ("0x").toList :=
  ⟨normalizeHexString_eq_amended, normalizeHexStringCk_eq_amended, rfl⟩

/-- C7 amended witness: the uppercase-prefix input `0X12`. -/
theorem normalizeHex_amended_contract_witness :
    normalizeHexStringCk (("0X12").toList) = normalizeHexAmended (("0X12").toList) :=
  normalizeHex_amended_contract.2.1 (("0X12").toList) (by decide)

/-- C9: (1) after any lookup completes — success, zero candidates, or
failure — the resolved cache maps the lowercase selector to exactly the
returned list; (2) a lookup for a cached selector returns the cached list,
issues zero network requests, and leaves the state unchanged (so the entry
persists and the request is never retried for the process lifetime);
(3) an uncached selector whose request fails (network failure or non-2xx
status) is cached as the empty candidate list. -/
theorem fetchOpenChain_cache_discipline (net net2 : Net) (st : OpenChainState)
    (selector : JStr) :
    (cacheLookup (fetchOpenChainFunctionSignatures net st selector).2.1
        (selector.map Char.toLower)
      = some (fetchOpenChainFunctionSignatures net st selector).1)
    ∧ (∀ sigs, cacheLookup st (selector.map Char.toLower) = some sigs →
        fetchOpenChainFunctionSignatures net2 st selector = (sigs, st, 0))
    ∧ (cacheLookup st (selector.map Char.toLower) = none →
        (net (selector.map Char.toLower) = .netFailure
          ∨ ∃ status, net (selector.map Char.toLower) = .httpError status) →
        fetchOpenChainFunctionSignatures net st selector
          = ([], (selector.map Char.toLower, []) :: st, 1)) := by
  refine ⟨?_, ?_, ?_⟩
  · unfold fetchOpenChainFunctionSignatures
    cases hc : cacheLookup st (selector.map Char.toLower) with
    | some sigs => simp [hc]
    | none =>
      cases hn : net (selector.map Char.toLower) with
      | ok functionMap => simp [hc, hn, cacheLookup]
      | httpError status => simp [hc, hn, cacheLookup]
      | netFailure => simp [hc, hn, cacheLookup]
  · intro sigs hc
    unfold fetchOpenChainFunctionSignatures
    simp [hc]
  · intro hc hfail
    unfold fetchOpenChainFunctionSignatures
    rcases hfail with hn | ⟨status, hn⟩ <;> simp [hc, hn]

/-- C9 witness: a failing lookup for a fresh selector is cached as the empty
list; the follow-up lookup is answered from the cache with zero requests. -/
theorem fetchOpenChain_cache_discipline_witness :
    fetchOpenChainFunctionSignatures failNet [] (("0xdeadbeef").toList)
      = ([], [((("0xdeadbeef").toList), [])], 1)
    ∧ fetchOpenChainFunctionSignatures failNet [((("0xdeadbeef").toList), [])]
        (("0xdeadbeef").toList)
      = ([], [((("0xdeadbeef").toList), [])], 0) :=
  ⟨by
    have h := (fetchOpenChain_cache_discipline failNet failNet []
      (("0xdeadbeef").toList)).2.2 (by decide) (Or.inl rfl)
    simpa using h,
  by
    have h := (fetchOpenChain_cache_discipline failNet failNet
      [((("0xdeadbeef").toList), [])] (("0xdeadbeef").toList)).2.1 [] (by decide)
    simpa using h⟩

/-- C4 counterexample: for selector `0xdeadbeef` (no manual rule, empty
cache), a transport failure and a confirmed zero-candidates response
produce the very same value — the generic unknown-function result with no
error message and the selector cached as the empty list — so the failure is
not distinguishable and carries no descriptive error. -/
theorem tryDecode_network_failure_indistinguishable :
    tryDecodeFunctionData oracleNone failNet 1 [] (("0xdeadbeef00").toList)
      = some (some (unknownFunctionResult (("0xdeadbeef").toList)
          (("0xdeadbeef00").toList)), [((("0xdeadbeef").toList), [])])
    ∧ tryDecodeFunctionData oracleNone emptyNet 1 [] (("0xdeadbeef00").toList)
      = some (some (unknownFunctionResult (("0xdeadbeef").toList)
          (("0xdeadbeef00").toList)), [((("0xdeadbeef").toList), [])])
    ∧ (unknownFunctionResult (("0xdeadbeef").toList) (("0xdeadbeef00").toList)).error
      = none :=
  ⟨rfl, rfl, rfl⟩

/-- C4 amended: a network or non-2xx failure during the remote lookup never
escapes the registry boundary, but it is also not distinguishable from
"not found": the failure is caught inside the fetch helper, cached as an
empty candidate list, and `tryDecodeFunctionData` returns the generic
unknown-function result with `error = none` — exactly as for a confirmed
zero-candidates lookup. -/
theorem tryDecode_network_failure_behavior (O : EthersOracle) (net : Net)
    (fuel : Nat) (st : OpenChainState) (data : JStr)
    (hne : ¬(data = [] ∨ data = ('0' :: 'x' :: [])))
    (hman : ∀ sel ∈ manualSelectors, jsSlice data (some 0) (some 10) ≠ sel)
    (hcache : cacheLookup st ((jsSlice data (some 0) (some 10)).map Char.toLower)
      = none)
    (hfail : net ((jsSlice data (some 0) (some 10)).map Char.toLower) = .netFailure
      ∨ ∃ status, net ((jsSlice data (some 0) (some 10)).map Char.toLower)
          = .httpError status) :
    tryDecodeFunctionData O net fuel st data
      = some (some (unknownFunctionResult (jsSlice data (some 0) (some 10)) data),
          ((jsSlice data (some 0) (some 10)).map Char.toLower, []) :: st)
    ∧ (unknownFunctionResult (jsSlice data (some 0) (some 10)) data).error = none := by
  have hfetch : fetchOpenChainFunctionSignatures net st (jsSlice data (some 0) (some 10))
      = ([], ((jsSlice data (some 0) (some 10)).map Char.toLower, []) :: st, 1) :=
    (fetchOpenChain_cache_discipline net net st _).2.2 hcache hfail
  constructor
  · unfold tryDecodeFunctionData
    rw [if_neg hne]
    rw [if_neg (hman _ (by simp [manualSelectors])),
      if_neg (hman _ (by simp [manualSelectors])),
      if_neg (hman _ (by simp [manualSelectors])),
      if_neg (hman _ (by simp [manualSelectors])),
      if_neg (hman _ (by simp [manualSelectors])),
      if_neg (hman _ (by simp [manualSelectors])),
      if_neg (hman _ (by simp [manualSelectors])),
      if_neg (hman _ (by simp [manualSelectors])),
      if_neg (hman _ (by simp [manualSelectors])),
      if_neg (hman _ (by simp [manualSelectors])),
      if_neg (hman _ (by simp [manualSelectors]))]
    rw [hfetch]
  · rfl

/-- C6 counterexample: empty and `0x` input make `tryDecodeFunctionData`
return `null` (no result at all, state untouched), not the generic
unknown-function result the claim requires. -/
theorem tryDecode_empty_input_returns_null :
    tryDecodeFunctionData oracleNone emptyNet 1 [] [] = some (none, [])
    ∧ tryDecodeFunctionData oracleNone emptyNet 1 [] ('0' :: 'x' :: [])
      = some (none, [])
    ∧ (some ((none : Option DecodedFunctionData), ([] : OpenChainState)))
      ≠ some (some (unknownFunctionResult (("0x").toList) (("0x").toList)),
          ([] : OpenChainState)) :=
  ⟨rfl, rfl, by decide⟩

/-- C6 amended: call data of at least 4 bytes whose selector matches no
manual rule and whose remote lookup resolves to zero candidates returns —
never throws — the generic result whose `name` embeds the raw selector and
whose `params.rawData` is the full input; empty or `0x` input returns
`null` (no result), a terminal outcome rather than an error. -/
theorem tryDecode_unknown_selector_terminal (O : EthersOracle) (net : Net)
    (fuel : Nat) (st : OpenChainState) (data : JStr)
    (hlen : 10 ≤ data.length)
    (hman : ∀ sel ∈ manualSelectors, jsSlice data (some 0) (some 10) ≠ sel)
    (hzero : (fetchOpenChainFunctionSignatures net st
        (jsSlice data (some 0) (some 10))).1 = []) :
    tryDecodeFunctionData O net fuel st data
      = some (some (unknownFunctionResult (jsSlice data (some 0) (some 10)) data),
          (fetchOpenChainFunctionSignatures net st
            (jsSlice data (some 0) (some 10))).2.1)
    ∧ (unknownFunctionResult (jsSlice data (some 0) (some 10)) data).name
      = ("Unknown Function (").toList ++ jsSlice data (some 0) (some 10)
        ++ (")").toList
    ∧ (unknownFunctionResult (jsSlice data (some 0) (some 10)) data).params
      = [(("rawData").toList, data)] := by
  have hne : ¬(data = [] ∨ data = ('0' :: 'x' :: [])) := by
    rintro (rfl | rfl) <;> simp at hlen
  refine ⟨?_, rfl, rfl⟩
  simp only [tryDecodeFunctionData]
  rw [if_neg hne]
  rw [if_neg (hman _ (by simp [manualSelectors])),
    if_neg (hman _ (by simp [manualSelectors])),
    if_neg (hman _ (by simp [manualSelectors])),
    if_neg (hman _ (by simp [manualSelectors])),
    if_neg (hman _ (by simp [manualSelectors])),
    if_neg (hman _ (by simp [manualSelectors])),
    if_neg (hman _ (by simp [manualSelectors])),
    if_neg (hman _ (by simp [manualSelectors])),
    if_neg (hman _ (by simp [manualSelectors])),
    if_neg (hman _ (by simp [manualSelectors])),
    if_neg (hman _ (by simp [manualSelectors]))]
  simp only [hzero]

/-- C6 amended witness: the unknown selector `0xdeadbeef` against a
reachable service with zero candidates. -/
theorem tryDecode_unknown_selector_terminal_witness :
    tryDecodeFunctionData oracleNone emptyNet 7 [] (("0xdeadbeef00").toList)
      = some (some (unknownFunctionResult
          (jsSlice (("0xdeadbeef00").toList) (some 0) (some 10))
          (("0xdeadbeef00").toList)),
        (fetchOpenChainFunctionSignatures emptyNet []
          (jsSlice (("0xdeadbeef00").toList) (some 0) (some 10))).2.1)
    ∧ (unknownFunctionResult
        (jsSlice (("0xdeadbeef00").toList) (some 0) (some 10))
        (("0xdeadbeef00").toList)).name
      = ("Unknown Function (").toList
        ++ jsSlice (("0xdeadbeef00").toList) (some 0) (some 10) ++ (")").toList
    ∧ (unknownFunctionResult
        (jsSlice (("0xdeadbeef00").toList) (some 0) (some 10))
        (("0xdeadbeef00").toList)).params
      = [(("rawData").toList, ("0xdeadbeef00").toList)] :=
  tryDecode_unknown_selector_terminal oracleNone emptyNet 7 [] _
    (by decide) (by decide) (by decide)

/-- C4 amended witness: transport failure on the fresh selector
`0xdeadbeef`. -/
theorem tryDecode_network_failure_behavior_witness :
    tryDecodeFunctionData oracleNone failNet 3 [] (("0xdeadbeef00").toList)
      = some (some (unknownFunctionResult
          (jsSlice (("0xdeadbeef00").toList) (some 0) (some 10))
          (("0xdeadbeef00").toList)),
        ((jsSlice (("0xdeadbeef00").toList) (some 0) (some 10)).map Char.toLower,
          []) :: [])
    ∧ (unknownFunctionResult
        (jsSlice (("0xdeadbeef00").toList) (some 0) (some 10))
        (("0xdeadbeef00").toList)).error = none :=
  tryDecode_network_failure_behavior oracleNone failNet 3 [] _
    (by decide) (by decide) (by decide) (Or.inl rfl)

set_option maxHeartbeats 1000000 in
set_option maxRecDepth 10000 in
/-- C5 amended: for call data `0x8d80ff0a ++ rest` whose ABI dynamic-bytes
structure is valid (an offset word pointing at an in-range length word,
with that many payload bytes available), `tryDecodeFunctionData` returns
`name = "multiSend(bytes)"` and `params.transactions` equal to the exact
inner-bundle hex with no prefix; `decodedTransactionsCount` is the length
of the inner decode's transaction list when that decode succeeds, and `0`
when the inner decode throws (in which case feeding the returned bytes back
to the decoder throws rather than yielding zero transactions). -/
theorem tryDecode_multiSend_unwrap (O : EthersOracle) (net : Net) (fuel : Nat)
    (st : OpenChainState) (rest : JStr) (off L : Nat)
    (hoff : parseIntHex (jsSlice rest (some 0) (some 64)) = some ((off : Int)))
    (hlen64 : 64 ≤ rest.length)
    (hlenfield : parseIntHex (jsSlice rest (some ((off : Int) * 2))
        (some ((off : Int) * 2 + 64))) = some ((L : Int)))
    (hfits : 2 * off + 64 + 2 * L ≤ rest.length) :
    ∀ r, decodeMultiSendTransactions fuel
        ('0' :: 'x' :: jsSlice rest (some ((off : Int) * 2 + 64))
          (some ((off : Int) * 2 + 64 + (L : Int) * 2))) = some r →
      tryDecodeFunctionData O net fuel st (("0x8d80ff0a").toList ++ rest)
        = some (some (manualResult ⟨("multiSend(bytes)").toList,
            [(("transactions").toList,
              jsSlice rest (some ((off : Int) * 2 + 64))
                (some ((off : Int) * 2 + 64 + (L : Int) * 2))),
             (("decodedTransactionsCount").toList,
               (Nat.repr (match r with
                 | .ok txs => txs
                 | .error _ => ([] : List DecodedTransaction)).length).toList)],
            none, none, none⟩), st) := by
  intro r hr
  have hlit : (("0x8d80ff0a").toList).length = 10 := rfl
  generalize hdata : ("0x8d80ff0a").toList ++ rest = data
  have hdlen : data.length = 10 + rest.length := by
    rw [← hdata, List.length_append, hlit]
  have hne : ¬(data = [] ∨ data = ('0' :: 'x' :: [])) := by
    rintro (h | h) <;> rw [h] at hdlen <;> simp at hdlen <;> omega
  have hsel : jsSlice data (some 0) (some 10) = ("0x8d80ff0a").toList := by
    rw [jsSlice_nonneg data _ _ (by omega) (by omega)]
    show (data.drop 0).take 10 = _
    rw [List.drop_zero, ← hdata]
    exact take_append_len _ _ _ (by decide)
  have habi : jsSlice data (some 10) (some (data.length : Int)) = rest := by
    rw [jsSlice_nonneg data _ _ (by omega) (by omega)]
    have hb : ((data.length : Int)).toNat = 10 + rest.length := by omega
    have ha : ((10 : Int)).toNat = 10 := by omega
    rw [ha, hb, ← hdata, drop_append_len _ _ _ (by decide)]
    exact List.take_of_length_le (by omega)
  have hbranch : multiSendBranch fuel data
      = some (manualResult ⟨("multiSend(bytes)").toList,
          [(("transactions").toList,
            jsSlice rest (some ((off : Int) * 2 + 64))
              (some ((off : Int) * 2 + 64 + (L : Int) * 2))),
           (("decodedTransactionsCount").toList,
             (Nat.repr (match r with
               | .ok txs => txs
               | .error _ => ([] : List DecodedTransaction)).length).toList)],
          none, none, none⟩) := by
    simp only [multiSendBranch, habi]
    rw [if_neg (by omega)]
    simp only [hoff, Option.map_some']
    have hlt1 : ¬(jsLt (some ((rest.length : Nat) : Int))
        (some ((off : Int) * 2 + 64)) = true) := by
      simp only [jsLt]
      simp only [decide_eq_true_eq]
      push_cast
      omega
    rw [if_neg hlt1]
    simp only [hlenfield, Option.map_some', optAdd]
    have hlt2 : ¬(jsLt (some ((rest.length : Nat) : Int))
        (some ((off : Int) * 2 + 64 + (L : Int) * 2)) = true) := by
      simp only [jsLt]
      simp only [decide_eq_true_eq]
      push_cast
      omega
    rw [if_neg hlt2]
    rw [hr, Option.map_some']
  simp only [tryDecodeFunctionData]
  rw [if_neg hne]
  rw [if_pos hsel, hbranch]
  rfl

set_option maxRecDepth 10000 in
/-- C5 counterexample: structurally valid dynamic bytes (offset 32, length
1, payload `00`) make `tryDecodeFunctionData` report
`decodedTransactionsCount = "0"` with `params.transactions = "00"`, but
feeding `0x00` back into `decodeMultiSendTransactions` throws a `BigNumber`
error — it does not yield zero transactions, so the two decode passes
disagree with the claim's count equation. -/
theorem tryDecode_multiSend_count_mismatch :
    tryDecodeFunctionData oracleNone emptyNet 2 []
        (("0x8d80ff0a"
          ++ "0000000000000000000000000000000000000000000000000000000000000020"
          ++ "0000000000000000000000000000000000000000000000000000000000000001"
          ++ "00").toList)
      = some (some (manualResult ⟨("multiSend(bytes)").toList,
          [(("transactions").toList, ("00").toList),
           (("decodedTransactionsCount").toList, ("0").toList)],
          none, none, none⟩), [])
    ∧ decodeMultiSendTransactions 2 (("0x00").toList)
      = some (.error .invalidBigNumber) :=
  ⟨rfl, rfl⟩

set_option maxHeartbeats 1000000 in
set_option maxRecDepth 10000 in
/-- C5 amended witness: offset 32, length 0 — an empty inner bundle that
decodes to zero transactions, matching the count. -/
theorem tryDecode_multiSend_unwrap_witness :
    tryDecodeFunctionData oracleNone emptyNet 1 []
        (("0x8d80ff0a").toList
          ++ ("0000000000000000000000000000000000000000000000000000000000000020"
            ++ "0000000000000000000000000000000000000000000000000000000000000000").toList)
      = some (some (manualResult ⟨("multiSend(bytes)").toList,
          [(("transactions").toList,
            jsSlice (("0000000000000000000000000000000000000000000000000000000000000020"
              ++ "0000000000000000000000000000000000000000000000000000000000000000").toList)
              (some (((32 : Nat) : Int) * 2 + 64))
              (some (((32 : Nat) : Int) * 2 + 64 + ((0 : Nat) : Int) * 2))),
           (("decodedTransactionsCount").toList, (Nat.repr 0).toList)],
          none, none, none⟩), []) :=
  tryDecode_multiSend_unwrap oracleNone emptyNet 1 [] _ 32 0
    (by decide) (by decide) (by decide) (by decide) (.ok []) (by rfl)

end SafeDecoder

